import Mathlib

/-!
Verification development for the universal-pitch-shifter repository.

The DSP core is embedded shallowly over exact rationals: every JavaScript
`number` (an IEEE double) is modelled as a `ℚ`, and every `Float32Array` as a
`List ℚ` whose length is the array's physical length.  The claims settled here
are about the control flow, the buffer bookkeeping and the exact algebra of the
algorithms; wherever the source computes a transcendental value
(`Math.pow(2, x/12)`, `Math.sin`, `Math.cos`) the model keeps that value
abstract, as an explicit argument, and no theorem depends on it.

Namespaces:
- `SoundTouchLib`  embeds the library engine (src/unnamed/part_003):
  `FifoSampleBuffer`, `RateTransposer`, `TimeStretch`, `SoundTouch`.
- `Worklet` embeds the inlined worklet engine and its AudioWorklet processor
  (src/src/worklet/soundtouch-processor.ts).
- `Rubberband` embeds the block-level control flow of the RubberBand
  AudioWorklet processor (src/unnamed/part_000); the WASM stretcher itself is
  external to the repository and is represented by its observable responses
  (`available` count and retrieved channel data), passed in as arguments.

Loops of the source are embedded as fuel-indexed recursions returning
`Option`: `none` means the fuel was insufficient, `some` is the value the
JavaScript loop computes.  Theorems about a loop's result are stated for every
fuel that suffices, and witnesses evaluate the model at concrete inputs.
-/

/-- JavaScript `TypedArray.prototype.set(src, start)` semantics when the
source fits: overwrite `v` from index `start` with `src`, keeping the rest. -/
def jsSet (v : List ℚ) (start : ℕ) (src : List ℚ) : List ℚ :=
  v.take start ++ src ++ v.drop (start + src.length)

/-- JavaScript `TypedArray.prototype.subarray(a, b)` semantics: the window
`[a, b)` of `v`, clamped to the physical length of `v`. -/
def jsSub (v : List ℚ) (a b : ℕ) : List ℚ :=
  (v.drop a).take (b - a)

/-- Read `v[i]`; in-range in every path the theorems exercise (JavaScript
would yield `undefined` out of range, a typed array read yields `undefined`
only past the physical end). -/
def getQ (v : List ℚ) (i : ℕ) : ℚ :=
  v.getD i 0

/-- A single JavaScript typed-array element store `v[i] = x`: out-of-range
stores on a `Float32Array` are silently discarded. -/
def jsWrite (v : List ℚ) (i : ℕ) (x : ℚ) : List ℚ :=
  if i < v.length then v.set i x else v

/-- Write a list of interleaved stereo frames at consecutive indices
`start, start+2, ...`, each sample stored with `jsWrite`. -/
def writeFrames (v : List ℚ) (start : ℕ) : List (ℚ × ℚ) → List ℚ
  | [] => v
  | (a, b) :: rest => writeFrames (jsWrite (jsWrite v start a) (start + 1) b) (start + 2) rest

namespace SoundTouchLib

/-- `FifoSampleBuffer` (part_003 lines 16-129): growable store of interleaved
stereo frames with a logical read position and a live frame count. -/
structure FifoSampleBuffer where
  vector : List ℚ
  position : ℕ
  frameCount : ℕ
  deriving Repr, DecidableEq

namespace FifoSampleBuffer

/-- Constructor: `new FifoSampleBuffer(initialCapacity = 4096)` allocates a
zeroed vector of `initialCapacity * 2` samples. -/
def mk' (initialCapacity : ℕ := 4096) : FifoSampleBuffer :=
  ⟨List.replicate (initialCapacity * 2) 0, 0, 0⟩

/-- `get startIndex()`: start of the live window in the underlying array. -/
def startIndex (b : FifoSampleBuffer) : ℕ := b.position * 2

/-- `get endIndex()`: end of the live window in the underlying array. -/
def endIndex (b : FifoSampleBuffer) : ℕ := (b.position + b.frameCount) * 2

/-- `rewind()`: compact by copying the live window to the front; the tail of
the storage beyond the moved window is left as-is (JS `set` of a subarray). -/
def rewind (b : FifoSampleBuffer) : FifoSampleBuffer :=
  if 0 < b.position then
    { b with vector := jsSet b.vector 0 (jsSub b.vector b.startIndex b.endIndex)
             position := 0 }
  else b

/-- `ensureCapacity(numFrames)`: grow to a fresh zeroed vector holding the
live window at the front, or compact in place. -/
def ensureCapacity (b : FifoSampleBuffer) (numFrames : ℤ) : FifoSampleBuffer :=
  let requiredSize : ℤ := numFrames * 2
  if (b.vector.length : ℤ) < requiredSize then
    { b with vector := jsSet (List.replicate requiredSize.toNat 0) 0
                 (jsSub b.vector b.startIndex b.endIndex)
             position := 0 }
  else b.rewind

/-- `put(numFrames)`: mark frames already written after `endIndex` as live. -/
def put (b : FifoSampleBuffer) (numFrames : ℕ) : FifoSampleBuffer :=
  { b with frameCount := b.frameCount + numFrames }

/-- `putSamples(samples, offset, numFrames)` with an explicit frame count. -/
def putSamples (b : FifoSampleBuffer) (samples : List ℚ) (offset : ℕ) (numFrames : ℕ) :
    FifoSampleBuffer :=
  let sourceStart := offset * 2
  let b1 := b.ensureCapacity ((b.frameCount : ℤ) + numFrames)
  let destStart := b1.endIndex
  let count := numFrames * 2
  { b1 with
    vector := jsSet b1.vector destStart (jsSub samples sourceStart (sourceStart + count))
    frameCount := b1.frameCount + numFrames }

/-- `putBuffer(buffer, offset, numFrames)` with an explicit frame count. -/
def putBuffer (b : FifoSampleBuffer) (src : FifoSampleBuffer) (offset : ℕ) (numFrames : ℕ) :
    FifoSampleBuffer :=
  b.putSamples src.vector (src.position + offset) numFrames

/-- `receive(numFrames)`: remove frames from the front; a negative request or
a request above the live count is clamped to the live count. -/
def receive (b : FifoSampleBuffer) (numFrames : ℤ) : FifoSampleBuffer :=
  let n : ℤ := if numFrames < 0 ∨ (b.frameCount : ℤ) < numFrames then (b.frameCount : ℤ)
               else numFrames
  { b with frameCount := b.frameCount - n.toNat, position := b.position + n.toNat }

/-- `receiveSamples(output, numFrames)`: copy `numFrames * 2` samples from the
read position into `output` (the copy itself is not clamped to the live
window, only to the physical storage), then remove via `receive`. -/
def receiveSamples (b : FifoSampleBuffer) (output : List ℚ) (numFrames : ℕ) :
    List ℚ × FifoSampleBuffer :=
  let count := numFrames * 2
  let start := b.startIndex
  (jsSet output 0 (jsSub b.vector start (start + count)), b.receive numFrames)

/-- `extract(output, offset, numFrames)`: peek without removing. -/
def extract (b : FifoSampleBuffer) (output : List ℚ) (offset : ℕ) (numFrames : ℕ) :
    List ℚ :=
  let start := b.startIndex + offset * 2
  jsSet output 0 (jsSub b.vector start (start + numFrames * 2))

/-- `clear()`: drop all live frames, then compact. -/
def clear (b : FifoSampleBuffer) : FifoSampleBuffer :=
  (b.receive b.frameCount).rewind

/-- The live content of the buffer: the samples between `startIndex` and
`endIndex`. -/
def liveList (b : FifoSampleBuffer) : List ℚ :=
  jsSub b.vector b.startIndex b.endIndex

end FifoSampleBuffer

end SoundTouchLib

namespace SoundTouchLib

namespace FifoSampleBuffer

theorem receive_clamp (b : FifoSampleBuffer) (n : ℕ) :
    (b.receive n).frameCount = b.frameCount - min n b.frameCount ∧
    (b.receive n).position = b.position + min n b.frameCount := by
  unfold receive
  by_cases h : (n : ℤ) < 0 ∨ (b.frameCount : ℤ) < n
  · rcases h with h | h
    · omega
    · simp only [if_pos (Or.inr h)]
      have hn : b.frameCount < n := by exact_mod_cast h
      constructor <;> simp <;> omega
  · simp only [if_neg h]
    push_neg at h
    have hn : n ≤ b.frameCount := by exact_mod_cast h.2
    constructor <;> simp <;> omega

theorem receiveSamples_copy (b : FifoSampleBuffer) (out : List ℚ) (n : ℕ)
    (hn : n ≤ b.frameCount) (hend : b.endIndex ≤ b.vector.length) :
    (b.receiveSamples out n).1 = b.liveList.take (2 * n) ++ out.drop (2 * n) := by
  have hkey : b.startIndex + n * 2 - b.startIndex = 2 * n := by omega
  have h1 : 2 * n ≤ b.endIndex - b.startIndex := by
    unfold startIndex endIndex
    omega
  have h2 : 2 * n ≤ b.vector.length - b.startIndex := by
    unfold startIndex endIndex at *
    omega
  have hlen : ((b.vector.drop b.startIndex).take (2 * n)).length = 2 * n := by
    simp only [List.length_take, List.length_drop]
    omega
  unfold receiveSamples liveList jsSet jsSub
  dsimp only
  rw [hkey, List.take_take, min_eq_left h1]
  simp [hlen]

end FifoSampleBuffer

theorem receiveSamples_copy_raw (b : SoundTouchLib.FifoSampleBuffer)
    (out : List ℚ) (n : ℕ) :
    (b.receiveSamples out n).1
      = (b.vector.drop b.startIndex).take (n * 2)
        ++ out.drop ((b.vector.drop b.startIndex).take (n * 2)).length := by
  unfold SoundTouchLib.FifoSampleBuffer.receiveSamples jsSet jsSub
  dsimp only
  rw [show b.startIndex + n * 2 - b.startIndex = n * 2 by omega]
  simp only [List.take_zero, List.nil_append, Nat.zero_add]

/-- C7 (amended): for a buffer holding `k` live frames and every requested
count `n ≥ 0`, `receive` removes exactly `min n k` frames (clamping both a
negative and an oversized request) and `receiveSamples` removes the same
clamped count; the copy of `receiveSamples` is not clamped to the live
region: it always copies `n` frames' worth of samples from the backing store
(clamped only at the physical capacity), which for `n ≤ k` is exactly the
first `n` live frames, and for `n > k` includes non-live storage (see the
counterexample). -/
theorem c7_receive_clamps_to_available (b : SoundTouchLib.FifoSampleBuffer)
    (out : List ℚ) (n : ℕ) (hend : b.endIndex ≤ b.vector.length) :
    (b.receive n).frameCount = b.frameCount - min n b.frameCount ∧
    (b.receive n).position = b.position + min n b.frameCount ∧
    (b.receiveSamples out n).2.frameCount = b.frameCount - min n b.frameCount ∧
    (b.receiveSamples out n).2.position = b.position + min n b.frameCount ∧
    (b.receiveSamples out n).1
      = (b.vector.drop b.startIndex).take (n * 2)
        ++ out.drop ((b.vector.drop b.startIndex).take (n * 2)).length ∧
    (n ≤ b.frameCount →
      (b.receiveSamples out n).1 = b.liveList.take (2 * n) ++ out.drop (2 * n)) := by
  obtain ⟨h1, h2⟩ := SoundTouchLib.FifoSampleBuffer.receive_clamp b n
  exact ⟨h1, h2, h1, h2, SoundTouchLib.receiveSamples_copy_raw b out n,
    fun hn => SoundTouchLib.FifoSampleBuffer.receiveSamples_copy b out n hn hend⟩

theorem c7_receive_clamps_to_available_witness :
    let b : SoundTouchLib.FifoSampleBuffer := ⟨[5, 5, 7, 7], 0, 1⟩
    b.endIndex ≤ b.vector.length ∧
    ((b.receive 2).frameCount = b.frameCount - min 2 b.frameCount ∧
     (b.receive 2).position = b.position + min 2 b.frameCount ∧
     (b.receiveSamples [0, 0, 0, 0] 2).2.frameCount = b.frameCount - min 2 b.frameCount ∧
     (b.receiveSamples [0, 0, 0, 0] 2).2.position = b.position + min 2 b.frameCount ∧
     (b.receiveSamples [0, 0, 0, 0] 2).1
       = (b.vector.drop b.startIndex).take (2 * 2)
         ++ [0, 0, 0, 0].drop ((b.vector.drop b.startIndex).take (2 * 2)).length ∧
     (2 ≤ b.frameCount →
       (b.receiveSamples [0, 0, 0, 0] 2).1
         = b.liveList.take (2 * 2) ++ [0, 0, 0, 0].drop (2 * 2))) :=
  ⟨by decide,
   c7_receive_clamps_to_available ⟨[5, 5, 7, 7], 0, 1⟩ [0, 0, 0, 0] 2 (by decide)⟩

/-- C7 counterexample: a buffer holding one live frame `(5, 5)` with stale
storage `(7, 7)` behind it.  `receiveSamples` with a request of 2 frames
copies 4 samples, including the non-live `(7, 7)`, instead of copying only
the single available frame; it does remove only the one live frame. -/
theorem c7_counterexample :
    let b : SoundTouchLib.FifoSampleBuffer := ⟨[5, 5, 7, 7], 0, 1⟩
    (b.receiveSamples [0, 0, 0, 0] 2).1 = [5, 5, 7, 7] ∧
    (b.receiveSamples [0, 0, 0, 0] 2).1 ≠ b.liveList.take (2 * 2) ++ [0, 0, 0, 0].drop (2 * 2) ∧
    b.endIndex = 2 ∧
    (b.receiveSamples [0, 0, 0, 0] 2).2.frameCount = 0 := by
  refine ⟨by decide, ?_, by decide, by decide⟩
  decide

/-- `RateTransposer` (part_003 lines 135-230): linear-interpolation rate
change with a fractional phase accumulator and one retained previous frame. -/
structure RateTransposer where
  rate : ℚ
  slopeCount : ℚ
  prevSampleL : ℚ
  prevSampleR : ℚ
  inputBuffer : FifoSampleBuffer
  outputBuffer : FifoSampleBuffer
  deriving Repr, DecidableEq

namespace RateTransposer

/-- Constructor: rate 1, zero phase, zero previous frame, fresh buffers. -/
def mk' : RateTransposer :=
  ⟨1, 0, 0, 0, FifoSampleBuffer.mk', FifoSampleBuffer.mk'⟩

/-- `set rate(value)`. -/
def setRate (rt : RateTransposer) (v : ℚ) : RateTransposer :=
  { rt with rate := v }

/-- `reset()`: zero phase and previous frame, clear both buffers. -/
def reset (rt : RateTransposer) : RateTransposer :=
  { rt with slopeCount := 0, prevSampleL := 0, prevSampleR := 0,
            inputBuffer := rt.inputBuffer.clear, outputBuffer := rt.outputBuffer.clear }

/-- First loop of `transpose` (lines 192-200): while `slopeCount < 1`,
interpolate the previous call's final frame with the first new frame.
Returns the emitted frames and the exit value of `slopeCount` (before the
`slopeCount -= 1.0` on line 201). -/
def rtP1 (rate inL inR prevL prevR : ℚ) : ℕ → ℚ → Option (List (ℚ × ℚ) × ℚ)
  | 0, _ => none
  | fuel + 1, s =>
    if s < 1 then
      match rtP1 rate inL inR prevL prevR fuel (s + rate) with
      | none => none
      | some (rest, sE) =>
        some (((1 - s) * prevL + s * inL, (1 - s) * prevR + s * inR) :: rest, sE)
    else some ([], s)

/-- Inner skip loop of `transpose` (lines 206-210): while `slopeCount ≥ 1`,
advance the input index, breaking right after the increment reaches
`numFrames - 1`. -/
def rtSkip (nF : ℕ) : ℕ → ℚ → ℕ → Option (ℚ × ℕ)
  | 0, _, _ => none
  | fuel + 1, s, i =>
    if 1 ≤ s then
      if nF - 1 ≤ i + 1 then some (s - 1, i + 1)
      else rtSkip nF fuel (s - 1) (i + 1)
    else some (s, i)

/-- Second loop of `transpose` (lines 205-221): after the inner skip loop,
stop if the input index reached `numFrames - 1`, otherwise interpolate two
consecutive input frames and continue. -/
def rtP2 (rate : ℚ) (input : List ℚ) (inputStart nF : ℕ) :
    ℕ → ℚ → ℕ → Option (List (ℚ × ℚ) × ℚ)
  | 0, _, _ => none
  | fuel + 1, s, i =>
    match rtSkip nF (fuel + 1) s i with
    | none => none
    | some p =>
      if nF - 1 ≤ p.2 then some ([], p.1)
      else
        let idx := inputStart + p.2 * 2
        let fr := ((1 - p.1) * getQ input idx + p.1 * getQ input (idx + 2),
                   (1 - p.1) * getQ input (idx + 1) + p.1 * getQ input (idx + 3))
        match rtP2 rate input inputStart nF fuel (p.1 + rate) p.2 with
        | none => none
        | some (rest, sE) => some (fr :: rest, sE)

/-- `transpose(numFrames)` (lines 180-229).  Returns the new state, the
output frame count, and (as an observation for the theorems) the list of
frames written sequentially to the output vector. -/
def transpose (fuel : ℕ) (rt : RateTransposer) (numFrames : ℕ) :
    Option (RateTransposer × ℕ × List (ℚ × ℚ)) :=
  if numFrames = 0 then some (rt, 0, [])
  else
    let input := rt.inputBuffer.vector
    let inputStart := rt.inputBuffer.startIndex
    let outputStart := rt.outputBuffer.endIndex
    match rtP1 rt.rate (getQ input inputStart) (getQ input (inputStart + 1))
        rt.prevSampleL rt.prevSampleR fuel rt.slopeCount with
    | none => none
    | some (em1, sExit) =>
      let s1 := sExit - 1
      match (if 1 < numFrames then rtP2 rt.rate input inputStart numFrames fuel s1 0
             else some ([], s1)) with
      | none => none
      | some (em2, s2) =>
        let emitted := em1 ++ em2
        some ({ rt with
                  slopeCount := s2
                  prevSampleL := getQ input (inputStart + (numFrames - 1) * 2)
                  prevSampleR := getQ input (inputStart + (numFrames - 1) * 2 + 1)
                  outputBuffer := { rt.outputBuffer with
                    vector := writeFrames rt.outputBuffer.vector outputStart emitted } },
              emitted.length, emitted)

/-- `process()` (lines 166-177): consume all buffered input frames, emit the
transposed frames.  The emitted frame list is returned as an observation. -/
def process (fuel : ℕ) (rt : RateTransposer) : Option (RateTransposer × List (ℚ × ℚ)) :=
  let numFrames := rt.inputBuffer.frameCount
  if numFrames = 0 then some (rt, [])
  else
    let grown := rt.outputBuffer.ensureCapacity
      ((rt.outputBuffer.frameCount : ℤ) + ⌈(numFrames : ℚ) / rt.rate⌉ + 1)
    let rt1 := { rt with outputBuffer := grown }
    match transpose fuel rt1 numFrames with
    | none => none
    | some (rt2, outputCount, emitted) =>
      some ({ rt2 with inputBuffer := rt2.inputBuffer.receive numFrames,
                       outputBuffer := rt2.outputBuffer.put outputCount }, emitted)

/-- Feed a sequence of interleaved blocks, calling `process` after each. -/
def runRT (fuel : ℕ) : RateTransposer → List (List ℚ) → Option RateTransposer
  | rt, [] => some rt
  | rt, blk :: rest =>
    let rtIn := { rt with inputBuffer := rt.inputBuffer.putSamples blk 0 (blk.length / 2) }
    match process fuel rtIn with
    | none => none
    | some (rt', _) => runRT fuel rt' rest

end RateTransposer

end SoundTouchLib

namespace SoundTouchLib

namespace RateTransposer

theorem rtP1_exit (rate inL inR prevL prevR : ℚ) (fuel : ℕ) (s : ℚ)
    (em : List (ℚ × ℚ)) (sE : ℚ) (hs : ¬ s < 1)
    (h : rtP1 rate inL inR prevL prevR fuel s = some (em, sE)) : sE = s := by
  cases fuel with
  | zero => simp [rtP1] at h
  | succ n =>
    simp only [rtP1, if_neg hs, Option.some.injEq, Prod.mk.injEq] at h
    exact h.2.symm

theorem rtP1_bounds (rate inL inR prevL prevR : ℚ) :
    ∀ fuel s em sE, rtP1 rate inL inR prevL prevR fuel s = some (em, sE) →
      1 ≤ sE ∧ (s < 1 → sE < 1 + rate) := by
  intro fuel
  induction fuel with
  | zero => intro s em sE h; simp [rtP1] at h
  | succ n ih =>
    intro s em sE h
    by_cases hs : s < 1
    · simp only [rtP1, if_pos hs] at h
      cases hrec : rtP1 rate inL inR prevL prevR n (s + rate) with
      | none => rw [hrec] at h; simp at h
      | some p =>
        obtain ⟨rest, sE0⟩ := p
        rw [hrec] at h
        simp only [Option.some.injEq, Prod.mk.injEq] at h
        obtain ⟨-, hsE⟩ := h
        subst hsE
        obtain ⟨hge, hlt⟩ := ih (s + rate) rest sE0 hrec
        refine ⟨hge, fun _ => ?_⟩
        by_cases hsr : s + rate < 1
        · exact hlt hsr
        · have hid := rtP1_exit rate inL inR prevL prevR n (s + rate) rest sE0 hsr hrec
          rw [hid]
          linarith
    · simp only [rtP1, if_neg hs, Option.some.injEq, Prod.mk.injEq] at h
      obtain ⟨-, hsE⟩ := h
      rw [← hsE]
      exact ⟨le_of_not_lt hs, fun hc => absurd hc hs⟩

theorem rtSkip_bounds (nF : ℕ) :
    ∀ fuel s i p, 0 ≤ s → s < 2 → rtSkip nF fuel s i = some p →
      0 ≤ p.1 ∧ p.1 < 1 := by
  intro fuel
  induction fuel with
  | zero => intro s i p _ _ h; simp [rtSkip] at h
  | succ n ih =>
    intro s i p h0 h2 h
    by_cases hs : 1 ≤ s
    · by_cases hb : nF - 1 ≤ i + 1
      · simp only [rtSkip, if_pos hs, if_pos hb, Option.some.injEq] at h
        rw [← h]
        constructor <;> simp <;> linarith
      · simp only [rtSkip, if_pos hs, if_neg hb] at h
        exact ih (s - 1) (i + 1) p (by linarith) (by linarith) h
    · simp only [rtSkip, if_neg hs, Option.some.injEq] at h
      rw [← h]
      exact ⟨h0, by simp; linarith [lt_of_not_le hs]⟩

theorem rtP2_bounds (rate : ℚ) (input : List ℚ) (inputStart nF : ℕ)
    (hr0 : 0 ≤ rate) (hr1 : rate ≤ 1) :
    ∀ fuel s i em sE, 0 ≤ s → s < 1 + rate →
      rtP2 rate input inputStart nF fuel s i = some (em, sE) →
      0 ≤ sE ∧ sE < 1 := by
  intro fuel
  induction fuel with
  | zero => intro s i em sE _ _ h; simp [rtP2] at h
  | succ n ih =>
    intro s i em sE h0 h1 h
    simp only [rtP2] at h
    cases hskip : rtSkip nF (n + 1) s i with
    | none => rw [hskip] at h; simp at h
    | some p =>
      rw [hskip] at h
      have hp := rtSkip_bounds nF (n + 1) s i p h0 (by linarith) hskip
      by_cases hb : nF - 1 ≤ p.2
      · simp only [if_pos hb, Option.some.injEq, Prod.mk.injEq] at h
        obtain ⟨-, hsE⟩ := h
        rw [← hsE]
        exact hp
      · simp only [if_neg hb] at h
        cases hrec : rtP2 rate input inputStart nF n (p.1 + rate) p.2 with
        | none => rw [hrec] at h; simp at h
        | some q =>
          obtain ⟨rest, sE0⟩ := q
          rw [hrec] at h
          simp only [Option.some.injEq, Prod.mk.injEq] at h
          obtain ⟨-, hsE⟩ := h
          subst hsE
          exact ih (p.1 + rate) p.2 rest sE0 (by linarith [hp.1]) (by linarith [hp.2]) hrec

theorem transpose_slope (fuel : ℕ) (rt : RateTransposer) (numFrames : ℕ)
    (res : RateTransposer × ℕ × List (ℚ × ℚ))
    (hr0 : 0 < rt.rate) (hr1 : rt.rate ≤ 1)
    (h0 : 0 ≤ rt.slopeCount) (h1 : rt.slopeCount < 1)
    (h : transpose fuel rt numFrames = some res) :
    (0 ≤ res.1.slopeCount ∧ res.1.slopeCount < 1) ∧ res.1.rate = rt.rate := by
  unfold transpose at h
  split at h
  · simp only [Option.some.injEq] at h
    rw [← h]
    exact ⟨⟨h0, h1⟩, rfl⟩
  · dsimp only at h
    split at h
    · simp at h
    · rename_i em1 sExit hp1
      obtain ⟨hge, hlt⟩ := rtP1_bounds rt.rate _ _ rt.prevSampleL rt.prevSampleR fuel
        rt.slopeCount em1 sExit hp1
      have hsx : sExit < 1 + rt.rate := hlt h1
      split at h
      · simp at h
      · rename_i em2 s2 hp2
        have hs2 : 0 ≤ s2 ∧ s2 < 1 := by
          by_cases hn1 : 1 < numFrames
          · rw [if_pos hn1] at hp2
            exact rtP2_bounds rt.rate rt.inputBuffer.vector rt.inputBuffer.startIndex
              numFrames (le_of_lt hr0) hr1 fuel (sExit - 1) 0 em2 s2
              (by linarith) (by linarith) hp2
          · rw [if_neg hn1] at hp2
            simp only [Option.some.injEq, Prod.mk.injEq] at hp2
            obtain ⟨-, hs⟩ := hp2
            rw [← hs]
            constructor
            · linarith
            · linarith
        simp only [Option.some.injEq] at h
        rw [← h]
        exact ⟨hs2, rfl⟩

theorem process_slope (fuel : ℕ) (rt : RateTransposer)
    (res : RateTransposer × List (ℚ × ℚ))
    (hr0 : 0 < rt.rate) (hr1 : rt.rate ≤ 1)
    (h0 : 0 ≤ rt.slopeCount) (h1 : rt.slopeCount < 1)
    (h : process fuel rt = some res) :
    (0 ≤ res.1.slopeCount ∧ res.1.slopeCount < 1) ∧ res.1.rate = rt.rate := by
  unfold process at h
  dsimp only at h
  split at h
  · simp only [Option.some.injEq] at h
    rw [← h]
    exact ⟨⟨h0, h1⟩, rfl⟩
  · split at h
    · simp at h
    · rename_i rt2 cnt em htr
      have := transpose_slope fuel
        { rt with outputBuffer := (rt.outputBuffer.ensureCapacity
            ((rt.outputBuffer.frameCount : ℤ) + ⌈(rt.inputBuffer.frameCount : ℚ) / rt.rate⌉ + 1)) }
        rt.inputBuffer.frameCount (rt2, cnt, em) hr0 hr1 h0 h1 htr
      simp only [Option.some.injEq] at h
      rw [← h]
      exact this

theorem runRT_slope (fuel : ℕ) :
    ∀ blocks rt rt', 0 < rt.rate → rt.rate ≤ 1 →
      0 ≤ rt.slopeCount → rt.slopeCount < 1 →
      runRT fuel rt blocks = some rt' →
      (0 ≤ rt'.slopeCount ∧ rt'.slopeCount < 1) ∧ rt'.rate = rt.rate := by
  intro blocks
  induction blocks with
  | nil =>
    intro rt rt' _ _ h0 h1 h
    simp only [runRT, Option.some.injEq] at h
    rw [← h]
    exact ⟨⟨h0, h1⟩, rfl⟩
  | cons blk rest ih =>
    intro rt rt' hr0 hr1 h0 h1 h
    simp only [runRT] at h
    split at h
    · simp at h
    · rename_i rt1 em hp
      have hstep := process_slope fuel
        { rt with inputBuffer := rt.inputBuffer.putSamples blk 0 (blk.length / 2) }
        (rt1, em) hr0 hr1 h0 h1 hp
      obtain ⟨⟨a, b⟩, c⟩ := hstep
      have hrest := ih rt1 rt' (by rw [c]; exact hr0) (by rw [c]; exact hr1) a b h
      rw [c] at hrest
      exact hrest

end RateTransposer

end SoundTouchLib

namespace SoundTouchLib

namespace RateTransposer

theorem rtP1_const (rate c : ℚ) :
    ∀ fuel s em sE, rtP1 rate c c c c fuel s = some (em, sE) →
      ∀ f ∈ em, f = (c, c) := by
  intro fuel
  induction fuel with
  | zero => intro s em sE h; simp [rtP1] at h
  | succ n ih =>
    intro s em sE h
    by_cases hs : s < 1
    · simp only [rtP1, if_pos hs] at h
      cases hrec : rtP1 rate c c c c n (s + rate) with
      | none => rw [hrec] at h; simp at h
      | some p =>
        obtain ⟨rest, sE0⟩ := p
        rw [hrec] at h
        simp only [Option.some.injEq, Prod.mk.injEq] at h
        obtain ⟨hem, -⟩ := h
        rw [← hem]
        intro f hf
        rcases List.mem_cons.mp hf with hh | ht
        · rw [hh]
          simp only [Prod.mk.injEq]
          constructor <;> ring
        · exact ih (s + rate) rest sE0 hrec f ht
    · simp only [rtP1, if_neg hs, Option.some.injEq, Prod.mk.injEq] at h
      obtain ⟨hem, -⟩ := h
      rw [← hem]
      intro f hf
      simp at hf

theorem rtP2_const (rate : ℚ) (input : List ℚ) (inputStart nF : ℕ) (c : ℚ)
    (hconst : ∀ j, j < 2 * nF → getQ input (inputStart + j) = c) :
    ∀ fuel s i em sE, rtP2 rate input inputStart nF fuel s i = some (em, sE) →
      ∀ f ∈ em, f = (c, c) := by
  intro fuel
  induction fuel with
  | zero => intro s i em sE h; simp [rtP2] at h
  | succ n ih =>
    intro s i em sE h
    simp only [rtP2] at h
    cases hskip : rtSkip nF (n + 1) s i with
    | none => rw [hskip] at h; simp at h
    | some p =>
      rw [hskip] at h
      by_cases hb : nF - 1 ≤ p.2
      · simp only [if_pos hb, Option.some.injEq, Prod.mk.injEq] at h
        obtain ⟨hem, -⟩ := h
        rw [← hem]
        intro f hf
        simp at hf
      · simp only [if_neg hb] at h
        cases hrec : rtP2 rate input inputStart nF n (p.1 + rate) p.2 with
        | none => rw [hrec] at h; simp at h
        | some q =>
          obtain ⟨rest, sE0⟩ := q
          rw [hrec] at h
          simp only [Option.some.injEq, Prod.mk.injEq] at h
          obtain ⟨hem, -⟩ := h
          rw [← hem]
          intro f hf
          rcases List.mem_cons.mp hf with hh | ht
          · have hp2 : p.2 < nF - 1 := lt_of_not_le hb
            have e0 : getQ input (inputStart + p.2 * 2) = c :=
              hconst (p.2 * 2) (by omega)
            have e1 : getQ input (inputStart + p.2 * 2 + 1) = c := by
              rw [Nat.add_assoc]
              exact hconst (p.2 * 2 + 1) (by omega)
            have e2 : getQ input (inputStart + p.2 * 2 + 2) = c := by
              rw [Nat.add_assoc]
              exact hconst (p.2 * 2 + 2) (by omega)
            have e3 : getQ input (inputStart + p.2 * 2 + 3) = c := by
              rw [Nat.add_assoc]
              exact hconst (p.2 * 2 + 3) (by omega)
            rw [hh]
            rw [e0, e1, e2, e3]
            simp only [Prod.mk.injEq]
            constructor <;> ring
          · exact ih (p.1 + rate) p.2 rest sE0 hrec f ht

theorem transpose_const (fuel : ℕ) (rt : RateTransposer) (numFrames : ℕ) (c : ℚ)
    (res : RateTransposer × ℕ × List (ℚ × ℚ))
    (hL : rt.prevSampleL = c) (hR : rt.prevSampleR = c)
    (hconst : ∀ j, j < 2 * numFrames →
      getQ rt.inputBuffer.vector (rt.inputBuffer.startIndex + j) = c)
    (h : transpose fuel rt numFrames = some res) :
    (∀ f ∈ res.2.2, f = (c, c)) ∧ res.1.prevSampleL = c ∧ res.1.prevSampleR = c := by
  unfold transpose at h
  split at h
  · rename_i hz
    simp only [Option.some.injEq] at h
    rw [← h]
    exact ⟨by intro f hf; simp at hf, hL, hR⟩
  · rename_i hz
    have hnf : 1 ≤ numFrames := by omega
    have h0 : getQ rt.inputBuffer.vector rt.inputBuffer.startIndex = c := by
      have := hconst 0 (by omega)
      simpa using this
    have h1 : getQ rt.inputBuffer.vector (rt.inputBuffer.startIndex + 1) = c :=
      hconst 1 (by omega)
    dsimp only at h
    rw [h0, h1, hL, hR] at h
    split at h
    · simp at h
    · rename_i em1 sExit hp1
      split at h
      · simp at h
      · rename_i em2 s2 hp2
        simp only [Option.some.injEq] at h
        have hm1 : ∀ f ∈ em1, f = (c, c) :=
          rtP1_const rt.rate c fuel rt.slopeCount em1 sExit hp1
        have hm2 : ∀ f ∈ em2, f = (c, c) := by
          by_cases hn1 : 1 < numFrames
          · rw [if_pos hn1] at hp2
            exact rtP2_const rt.rate rt.inputBuffer.vector rt.inputBuffer.startIndex
              numFrames c hconst fuel (sExit - 1) 0 em2 s2 hp2
          · rw [if_neg hn1] at hp2
            simp only [Option.some.injEq, Prod.mk.injEq] at hp2
            obtain ⟨hem, -⟩ := hp2
            rw [← hem]
            intro f hf
            simp at hf
        have hprevL : getQ rt.inputBuffer.vector
            (rt.inputBuffer.startIndex + (numFrames - 1) * 2) = c :=
          hconst ((numFrames - 1) * 2) (by omega)
        have hprevR : getQ rt.inputBuffer.vector
            (rt.inputBuffer.startIndex + (numFrames - 1) * 2 + 1) = c := by
          rw [Nat.add_assoc]
          exact hconst ((numFrames - 1) * 2 + 1) (by omega)
        rw [← h]
        refine ⟨?_, hprevL, hprevR⟩
        intro f hf
        rcases List.mem_append.mp hf with hf1 | hf2
        · exact hm1 f hf1
        · exact hm2 f hf2

end RateTransposer

end SoundTouchLib

namespace SoundTouchLib

namespace RateTransposer

theorem process_const (fuel : ℕ) (rt : RateTransposer) (c : ℚ)
    (res : RateTransposer × List (ℚ × ℚ))
    (hL : rt.prevSampleL = c) (hR : rt.prevSampleR = c)
    (hconst : ∀ j, j < 2 * rt.inputBuffer.frameCount →
      getQ rt.inputBuffer.vector (rt.inputBuffer.startIndex + j) = c)
    (h : process fuel rt = some res) :
    (∀ f ∈ res.2, f = (c, c)) ∧ res.1.prevSampleL = c ∧ res.1.prevSampleR = c := by
  unfold process at h
  dsimp only at h
  split at h
  · simp only [Option.some.injEq] at h
    rw [← h]
    exact ⟨by intro f hf; simp at hf, hL, hR⟩
  · split at h
    · simp at h
    · rename_i rt2 cnt em htr
      have := transpose_const fuel
        { rt with outputBuffer := (rt.outputBuffer.ensureCapacity
            ((rt.outputBuffer.frameCount : ℤ) + ⌈(rt.inputBuffer.frameCount : ℚ) / rt.rate⌉ + 1)) }
        rt.inputBuffer.frameCount c (rt2, cnt, em) hL hR hconst htr
      simp only [Option.some.injEq] at h
      rw [← h]
      exact ⟨this.1, this.2⟩

end RateTransposer

end SoundTouchLib

/-- C6 (amended): for every `RateTransposer` whose rate `r` satisfies
`0 < r ≤ 1` and whose phase accumulator starts in `[0, 1)`, any sequence of
input blocks with a `process()` call after each leaves `slopeCount` in
`[0, 1)` at every call boundary.  The unamended claim (all `r > 0`) fails:
with `r > 1` a call can end with `slopeCount = 1` (see the counterexample). -/
theorem c6_slopeCount_invariant (rt : SoundTouchLib.RateTransposer)
    (blocks : List (List ℚ)) (fuel : ℕ) (rt' : SoundTouchLib.RateTransposer)
    (hr0 : 0 < rt.rate) (hr1 : rt.rate ≤ 1)
    (h0 : 0 ≤ rt.slopeCount) (h1 : rt.slopeCount < 1)
    (h : SoundTouchLib.RateTransposer.runRT fuel rt blocks = some rt') :
    0 ≤ rt'.slopeCount ∧ rt'.slopeCount < 1 :=
  (SoundTouchLib.RateTransposer.runRT_slope fuel blocks rt rt' hr0 hr1 h0 h1 h).1

/-- A small well-formed half-rate transposer used to instantiate the C6
theorem concretely. -/
def c6rtW : SoundTouchLib.RateTransposer :=
  { rate := 1/2, slopeCount := 0, prevSampleL := 0, prevSampleR := 0,
    inputBuffer := ⟨List.replicate 8 0, 0, 0⟩,
    outputBuffer := ⟨List.replicate 16 0, 0, 0⟩ }

unseal Rat.add Rat.mul Rat.inv Rat.sub in
theorem c6_slopeCount_invariant_witness :
    (0 < c6rtW.rate ∧ c6rtW.rate ≤ 1 ∧
     0 ≤ c6rtW.slopeCount ∧ c6rtW.slopeCount < 1 ∧
     SoundTouchLib.RateTransposer.runRT 8 c6rtW [[1, 1]] =
       some ((SoundTouchLib.RateTransposer.runRT 8 c6rtW [[1, 1]]).getD c6rtW)) ∧
    (0 ≤ ((SoundTouchLib.RateTransposer.runRT 8 c6rtW [[1, 1]]).getD c6rtW).slopeCount ∧
     ((SoundTouchLib.RateTransposer.runRT 8 c6rtW [[1, 1]]).getD c6rtW).slopeCount < 1) :=
  ⟨⟨by decide, by decide, by decide, by decide, rfl⟩,
   c6_slopeCount_invariant c6rtW [[1, 1]] 8 _
     (by decide) (by decide) (by decide) (by decide) rfl⟩

/-- A `RateTransposer` state with rate 3 and two buffered constant frames;
its phase accumulator is 0 and its buffers are small but well-formed. -/
def c6rt : SoundTouchLib.RateTransposer :=
  { rate := 3, slopeCount := 0, prevSampleL := 0, prevSampleR := 0,
    inputBuffer := ⟨[1, 1, 1, 1], 0, 2⟩,
    outputBuffer := ⟨List.replicate 16 0, 0, 0⟩ }

unseal Rat.add Rat.mul Rat.inv Rat.sub in
/-- C6 counterexample: with rate 3 (allowed by the claim, which only asks
`r > 0`) and `slopeCount = 0 ∈ [0, 1)`, a single `process()` call over two
buffered frames ends with `slopeCount = 1`, which is not in `[0, 1)`. -/
theorem c6_counterexample :
    0 < c6rt.rate ∧ 0 ≤ c6rt.slopeCount ∧ c6rt.slopeCount < 1 ∧
    (SoundTouchLib.RateTransposer.process 10 c6rt).map
      (fun p => p.1.slopeCount) = some 1 ∧
    ¬ ((1 : ℚ) < 1) :=
  ⟨by decide, by decide, by decide, by decide, by decide⟩

/-- C8 (amended): a `RateTransposer` whose retained previous frame already
equals the DC value `c` (as holds from the second `process()` call onward,
since the previous frame is updated to the last input frame) and whose live
input frames all equal `c` emits only frames equal to `(c, c)`, and retains
`c` as the previous frame again.  The unamended claim (from the initial
state, whose previous frame is 0) fails on the very first emitted frame,
which interpolates from the initial zero: see the counterexample. -/
theorem c8_dc_preservation (rt : SoundTouchLib.RateTransposer) (c : ℚ) (fuel : ℕ)
    (res : SoundTouchLib.RateTransposer × List (ℚ × ℚ))
    (hL : rt.prevSampleL = c) (hR : rt.prevSampleR = c)
    (hconst : ∀ j, j < 2 * rt.inputBuffer.frameCount →
      getQ rt.inputBuffer.vector (rt.inputBuffer.startIndex + j) = c)
    (h : SoundTouchLib.RateTransposer.process fuel rt = some res) :
    res.2 = List.replicate res.2.length (c, c) ∧
    res.1.prevSampleL = c ∧ res.1.prevSampleR = c := by
  obtain ⟨hall, hpl, hpr⟩ :=
    SoundTouchLib.RateTransposer.process_const fuel rt c res hL hR hconst h
  exact ⟨List.eq_replicate_iff.mpr ⟨rfl, hall⟩, hpl, hpr⟩

/-- A transposer mid-stream: previous frame already equals the DC value 1,
two frames of 1 buffered. -/
def c8rtW : SoundTouchLib.RateTransposer :=
  { rate := 1/2, slopeCount := 0, prevSampleL := 1, prevSampleR := 1,
    inputBuffer := ⟨[1, 1, 1, 1], 0, 2⟩,
    outputBuffer := ⟨List.replicate 16 0, 0, 0⟩ }

unseal Rat.add Rat.mul Rat.inv Rat.sub in
theorem c8_dc_preservation_witness :
    (c8rtW.prevSampleL = 1 ∧ c8rtW.prevSampleR = 1 ∧
     (∀ j, j < 2 * c8rtW.inputBuffer.frameCount →
        getQ c8rtW.inputBuffer.vector (c8rtW.inputBuffer.startIndex + j) = 1) ∧
     SoundTouchLib.RateTransposer.process 12 c8rtW =
       some ((SoundTouchLib.RateTransposer.process 12 c8rtW).getD (c8rtW, []))) ∧
    (((SoundTouchLib.RateTransposer.process 12 c8rtW).getD (c8rtW, [])).2 =
       List.replicate
         ((SoundTouchLib.RateTransposer.process 12 c8rtW).getD (c8rtW, [])).2.length (1, 1) ∧
     ((SoundTouchLib.RateTransposer.process 12 c8rtW).getD (c8rtW, [])).1.prevSampleL = 1 ∧
     ((SoundTouchLib.RateTransposer.process 12 c8rtW).getD (c8rtW, [])).1.prevSampleR = 1) :=
  ⟨⟨by decide, by decide, by decide, rfl⟩,
   c8_dc_preservation c8rtW 1 12 _ (by decide) (by decide) (by decide) rfl⟩

/-- The initial-state transposer (rate 1, zero phase, zero previous frame)
after being fed two frames of the constant 1 through `putSamples`.  The
buffers carry a reduced physical capacity (the source constructor reserves
4096 frames); capacity only affects storage, not the emitted values. -/
def c8rt : SoundTouchLib.RateTransposer :=
  { SoundTouchLib.RateTransposer.mk' with
    inputBuffer := (SoundTouchLib.FifoSampleBuffer.mk' 4).putSamples [1, 1, 1, 1] 0 2,
    outputBuffer := SoundTouchLib.FifoSampleBuffer.mk' 8 }

unseal Rat.add Rat.mul Rat.inv Rat.sub in
/-- C8 counterexample: from the initial state (previous frame 0, rate 1 > 0)
with 2 ≥ 1 frames of the constant 1 buffered, the first frame emitted by
`process()` is `(0, 0)` — the phase-1 interpolation out of the initial zero
previous frame — not `(1, 1)`. -/
theorem c8_counterexample :
    0 < c8rt.rate ∧ c8rt.inputBuffer.frameCount = 2 ∧
    (∀ j, j < 2 * c8rt.inputBuffer.frameCount →
      getQ c8rt.inputBuffer.vector (c8rt.inputBuffer.startIndex + j) = 1) ∧
    (SoundTouchLib.RateTransposer.process 10 c8rt).map
      (fun p => p.2.headD (9, 9)) = some (0, 0) ∧
    (0 : ℚ) ≠ 1 :=
  ⟨by decide, by decide, by decide, by decide, by decide⟩

/-- JavaScript `Number.MIN_VALUE`, the smallest positive double, used as the
initial best-correlation value of the quick seek. -/
def jsNumberMinValue : ℚ := 1 / 2 ^ 1074

namespace SoundTouchLib

/-- `TimeStretch` (part_003 lines 236-479): WSOLA time stretching.  Lengths
derived through `Math.floor` are held as `ℤ`; ms parameters and the skip
accumulators as `ℚ`.  `ℤ → ℕ` index conversions truncate at 0; every
configuration the theorems exercise keeps those quantities non-negative. -/
structure TimeStretch where
  sampleRate : ℚ
  tempo : ℚ
  sequenceMs : ℚ
  seekWindowMs : ℚ
  overlapMs : ℚ
  sequenceLength : ℤ
  seekLength : ℤ
  overlapLength : ℤ
  nominalSkip : ℚ
  skipFract : ℚ
  midBuffer : Option (List ℚ)
  refMidBuffer : Option (List ℚ)
  sampleReq : ℤ
  inputBuffer : FifoSampleBuffer
  outputBuffer : FifoSampleBuffer
  deriving Repr, DecidableEq

namespace TimeStretch

/-- Constructor state: the field initializers of the class (lines 237-255)
plus fresh buffers. -/
def mk' : TimeStretch :=
  { sampleRate := 44100, tempo := 1, sequenceMs := 0, seekWindowMs := 0,
    overlapMs := 16, sequenceLength := 0, seekLength := 0, overlapLength := 0,
    nominalSkip := 0, skipFract := 0, midBuffer := none, refMidBuffer := none,
    sampleReq := 0, inputBuffer := FifoSampleBuffer.mk',
    outputBuffer := FifoSampleBuffer.mk' }

/-- The quick-seek scan offset table (lines 258-263). -/
def SCAN_OFFSETS : List (List ℤ) :=
  [[124, 186, 248, 310, 372, 434, 496, 558, 620, 682, 744, 806, 868, 930, 992,
    1054, 1116, 1178, 1240, 1302, 1364, 1426, 1488, 0],
   [-100, -75, -50, -25, 25, 50, 75, 100, 0, 0, 0, 0, 0, 0, 0, 0, 0, 0, 0, 0, 0, 0, 0, 0],
   [-20, -15, -10, -5, 5, 10, 15, 20, 0, 0, 0, 0, 0, 0, 0, 0, 0, 0, 0, 0, 0, 0, 0, 0],
   [-4, -3, -2, -1, 1, 2, 3, 4, 0, 0, 0, 0, 0, 0, 0, 0, 0, 0, 0, 0, 0, 0, 0, 0]]

/-- `calculateEffectiveParams()` (lines 320-342): tempo-adaptive sequence and
seek lengths, auto-interpolated when the ms parameter is 0.  The source
assigns `this.sequenceLength` and then `this.seekLength`; neither assignment
reads the other, so the two updates are stated together. -/
def calculateEffectiveParams (st : TimeStretch) : TimeStretch :=
  let seqLen : ℤ :=
    if st.sequenceMs = 0 then
      let seqMs : ℚ := 125 - (125 - 50) / (2 - 1/2) * (st.tempo - 1/2)
      ⌊st.sampleRate * max 50 (min 125 seqMs) / 1000⌋
    else
      ⌊st.sampleRate * st.sequenceMs / 1000⌋
  let seekLen : ℤ :=
    if st.seekWindowMs = 0 then
      let seekMs : ℚ := 25 - (25 - 15) / (2 - 1/2) * (st.tempo - 1/2)
      ⌊st.sampleRate * max 15 (min 25 seekMs) / 1000⌋
    else
      ⌊st.sampleRate * st.seekWindowMs / 1000⌋
  { st with sequenceLength := seqLen, seekLength := seekLen }

/-- `calculateOverlapLength()` (lines 344-352): floor of the ms duration,
clamped up to 16, aligned down to a multiple of 8; reallocates the mid and
reference buffers. -/
def calculateOverlapLength (st : TimeStretch) : TimeStretch :=
  let overlap0 : ℤ := ⌊st.sampleRate * st.overlapMs / 1000⌋
  let overlap1 : ℤ := if overlap0 < 16 then 16 else overlap0
  let overlap : ℤ := overlap1 - overlap1 % 8
  { st with overlapLength := overlap,
            refMidBuffer := some (List.replicate (overlap * 2).toNat 0),
            midBuffer := some (List.replicate (overlap * 2).toNat 0) }

/-- `set tempo(value)` (lines 292-302): recompute effective params, the
nominal skip (`seekWindowLength` is a getter for `sequenceLength`), zero the
skip fraction and derive `sampleReq`. -/
def setTempo (st : TimeStretch) (v : ℚ) : TimeStretch :=
  let st2 := calculateEffectiveParams { st with tempo := v }
  let nominalSkip : ℚ := st2.tempo * ((st2.sequenceLength - st2.overlapLength : ℤ) : ℚ)
  let skip : ℤ := ⌊nominalSkip + 1/2⌋
  { st2 with nominalSkip := nominalSkip, skipFract := 0,
             sampleReq := max (skip + st2.overlapLength) st2.sequenceLength + st2.seekLength }

/-- `setParameters(sampleRate, sequenceMs, seekWindowMs, overlapMs)`
(lines 274-290); the source defaults are `0, 0, 16`.  The two guarded
assignments touch independent fields, so they are stated as one update. -/
def setParameters (st : TimeStretch) (sampleRate : ℚ) (seqMs : ℚ := 0)
    (seekMs : ℚ := 0) (ovMs : ℚ := 16) : TimeStretch :=
  let st3 := { st with
    sampleRate := if 0 < sampleRate then sampleRate else st.sampleRate,
    overlapMs := if 0 < ovMs then ovMs else st.overlapMs,
    sequenceMs := seqMs, seekWindowMs := seekMs }
  let st4 := calculateOverlapLength (calculateEffectiveParams st3)
  setTempo st4 st4.tempo

/-- `reset()` (lines 312-317). -/
def reset (st : TimeStretch) : TimeStretch :=
  { st with midBuffer := none, skipFract := 0,
            inputBuffer := st.inputBuffer.clear,
            outputBuffer := st.outputBuffer.clear }

/-- `precalcCorrReference()` (lines 387-394): overwrite the reference buffer
with the triangularly weighted mid buffer, element store by element store. -/
def precalcLoop (ref mid : List ℚ) (overlap : ℕ) : List ℚ :=
  (List.range overlap).foldl (fun (r : List ℚ) (i : ℕ) =>
    let weight : ℚ := (i : ℚ) * ((overlap : ℚ) - (i : ℚ))
    jsWrite (jsWrite r (i * 2) (getQ mid (i * 2) * weight))
      (i * 2 + 1) (getQ mid (i * 2 + 1) * weight)) ref

/-- `calculateCrossCorr(offset)` (lines 397-409); the source loop runs over
even `i` from 2, i.e. over frames `k = 1, ..., overlapLength - 1`. -/
def calculateCrossCorr (st : TimeStretch) (offset : ℕ) : ℚ :=
  let input := st.inputBuffer.vector
  let inputStart := st.inputBuffer.startIndex + offset
  let ref := st.refMidBuffer.getD []
  ((List.range st.overlapLength.toNat).drop 1).foldl (fun (corr : ℚ) (k : ℕ) =>
    corr + getQ input (inputStart + 2 * k) * getQ ref (2 * k)
         + getQ input (inputStart + 2 * k + 1) * getQ ref (2 * k + 1)) 0

/-- `seekBestOverlapPositionQuick()` (lines 361-384): four coarse-to-fine
scan levels; each level walks its row until the 0 terminator, keeping the
best correlation, then recenters on the best offset found. -/
def seekQuick (st : TimeStretch) : ℤ :=
  (SCAN_OFFSETS.foldl (fun (acc : ℚ × ℤ) row =>
    let corrOffset := acc.2
    (row.takeWhile (fun x => x ≠ 0)).foldl (fun (a : ℚ × ℤ) entry =>
      let testOffset := corrOffset + entry
      if 0 ≤ testOffset ∧ testOffset < st.seekLength then
        let corr := calculateCrossCorr st (testOffset * 2).toNat
        if corr > a.1 then (corr, testOffset) else a
      else a) acc) (jsNumberMinValue, 0)).2

/-- `overlap(offset)` (lines 412-429): the frames written to the output
vector by the linear crossfade of input against the mid buffer. -/
def overlapFrames (st : TimeStretch) (offset : ℕ) : List (ℚ × ℚ) :=
  let input := st.inputBuffer.vector
  let inputStart := st.inputBuffer.startIndex + offset * 2
  let mid := st.midBuffer.getD []
  let invOverlap : ℚ := 1 / (st.overlapLength : ℚ)
  (List.range st.overlapLength.toNat).map (fun (i : ℕ) =>
    let fadeOut : ℚ := ((st.overlapLength : ℚ) - (i : ℚ)) * invOverlap
    let fadeIn : ℚ := (i : ℚ) * invOverlap
    (getQ input (inputStart + i * 2) * fadeIn + getQ mid (i * 2) * fadeOut,
     getQ input (inputStart + i * 2 + 1) * fadeIn + getQ mid (i * 2 + 1) * fadeOut))

/-- The body of the `process()` while loop (lines 444-476): seek the best
overlap position (after refreshing the weighted reference), overlap-add one
window, copy the middle section, save the next mid buffer, and advance the
input by the accumulated skip. -/
def processBody (st : TimeStretch) : TimeStretch :=
  let stR := { st with refMidBuffer := (some (precalcLoop (st.refMidBuffer.getD [])
    (st.midBuffer.getD []) st.overlapLength.toNat)) }
  let offset : ℤ := seekQuick stR
  let st1 := { stR with outputBuffer := (stR.outputBuffer.ensureCapacity
    ((stR.outputBuffer.frameCount : ℤ) + stR.overlapLength)) }
  let st2 := { st1 with outputBuffer := { st1.outputBuffer with
    vector := (writeFrames st1.outputBuffer.vector st1.outputBuffer.endIndex
      (overlapFrames st1 offset.toNat)) } }
  let st3 := { st2 with outputBuffer := st2.outputBuffer.put st2.overlapLength.toNat }
  let middleLength : ℤ := st3.sequenceLength - 2 * st3.overlapLength
  let st4 := if 0 < middleLength then
      { st3 with outputBuffer := (st3.outputBuffer.putBuffer st3.inputBuffer
          (offset.toNat + st3.overlapLength.toNat) middleLength.toNat) }
    else st3
  let midStart := st4.inputBuffer.startIndex +
    (offset.toNat + st4.sequenceLength.toNat - st4.overlapLength.toNat) * 2
  let st5 := { st4 with midBuffer := (some (jsSet (st4.midBuffer.getD []) 0
    (jsSub st4.inputBuffer.vector midStart (midStart + st4.overlapLength.toNat * 2)))) }
  let skipFract1 := st5.skipFract + st5.nominalSkip
  let skip : ℤ := ⌊skipFract1⌋
  { st5 with skipFract := skipFract1 - (skip : ℚ),
             inputBuffer := st5.inputBuffer.receive skip }

/-- The `process()` while loop (lines 443-477): run `processBody` while at
least `sampleReq` input frames are buffered. -/
def processLoop : ℕ → TimeStretch → Option TimeStretch
  | 0, _ => none
  | fuel + 1, st =>
    if st.sampleReq ≤ (st.inputBuffer.frameCount : ℤ) then
      processLoop fuel (processBody st)
    else some st

/-- The guard of the first-call branch of `process()` (line 434): the mid
buffer is null or empty. -/
def needSeed (st : TimeStretch) : Bool :=
  match st.midBuffer with
  | none => true
  | some m => m.length == 0

/-- `process()` (lines 432-478): seed the mid buffer on first call (when it
is null or empty), then run the while loop. -/
def process (fuel : ℕ) (st : TimeStretch) : Option TimeStretch :=
  if needSeed st then
    if (st.inputBuffer.frameCount : ℤ) < st.overlapLength then some st
    else
      let pr := st.inputBuffer.receiveSamples
        (List.replicate (st.overlapLength * 2).toNat 0) st.overlapLength.toNat
      processLoop fuel { st with midBuffer := some pr.1, inputBuffer := pr.2 }
  else processLoop fuel st

/-- Feed a sequence of interleaved blocks, calling `process` after each. -/
def runTS (fuel : ℕ) : TimeStretch → List (List ℚ) → Option TimeStretch
  | st, [] => some st
  | st, blk :: rest =>
    let stIn := { st with inputBuffer := st.inputBuffer.putSamples blk 0 (blk.length / 2) }
    match process fuel stIn with
    | none => none
    | some st' => runTS fuel st' rest

end TimeStretch

end SoundTouchLib


/-- Overwriting a list from index 0 never empties a non-empty list. -/
theorem jsSet_zero_ne_nil (v src : List ℚ) (hv : v ≠ []) : jsSet v 0 src ≠ [] := by
  unfold jsSet
  simp only [List.take_zero, List.nil_append, Nat.zero_add]
  intro hcontra
  rcases List.append_eq_nil.mp hcontra with ⟨hsrc, hdrop⟩
  rw [hsrc] at hdrop
  simp at hdrop
  exact hv hdrop

namespace SoundTouchLib

namespace FifoSampleBuffer

theorem rewind_frameCount (b : FifoSampleBuffer) : b.rewind.frameCount = b.frameCount := by
  unfold rewind
  split <;> rfl

theorem ensureCapacity_frameCount (b : FifoSampleBuffer) (n : ℤ) :
    (b.ensureCapacity n).frameCount = b.frameCount := by
  unfold ensureCapacity
  dsimp only
  split
  · rfl
  · exact rewind_frameCount b

theorem put_frameCount (b : FifoSampleBuffer) (n : ℕ) :
    (b.put n).frameCount = b.frameCount + n := rfl

theorem putSamples_frameCount (b : FifoSampleBuffer) (samples : List ℚ) (offset n : ℕ) :
    (b.putSamples samples offset n).frameCount = b.frameCount + n := by
  unfold putSamples
  dsimp only
  rw [ensureCapacity_frameCount]

theorem putBuffer_frameCount (b src : FifoSampleBuffer) (offset n : ℕ) :
    (b.putBuffer src offset n).frameCount = b.frameCount + n :=
  putSamples_frameCount b src.vector (src.position + offset) n

theorem receive_exact (b : FifoSampleBuffer) (n : ℤ) (h0 : 0 ≤ n)
    (h1 : n ≤ (b.frameCount : ℤ)) :
    ((b.receive n).frameCount : ℤ) = (b.frameCount : ℤ) - n := by
  unfold receive
  have hcond : ¬ (n < 0 ∨ (b.frameCount : ℤ) < n) := by push_neg; exact ⟨h0, h1⟩
  simp only [if_neg hcond]
  have : n.toNat ≤ b.frameCount := by omega
  omega

theorem receiveSamples_frameCount (b : FifoSampleBuffer) (out : List ℚ) (n : ℕ)
    (h1 : n ≤ b.frameCount) :
    (((b.receiveSamples out n).2).frameCount : ℤ) = (b.frameCount : ℤ) - n := by
  unfold receiveSamples
  exact receive_exact b n (by omega) (by exact_mod_cast h1)

theorem clear_frameCount (b : FifoSampleBuffer) : b.clear.frameCount = 0 := by
  unfold clear
  rw [rewind_frameCount]
  have := receive_clamp b b.frameCount
  omega

end FifoSampleBuffer

namespace TimeStretch

/-- The overlap length as a pure function of the sample rate and the overlap
duration (the formula of `calculateOverlapLength`, lines 345-348). -/
def derivedOverlapLength (sampleRate overlapMs : ℚ) : ℤ :=
  let o0 : ℤ := ⌊sampleRate * overlapMs / 1000⌋
  let o1 : ℤ := if o0 < 16 then 16 else o0
  o1 - o1 % 8

theorem calcEff_pres (st : TimeStretch) :
    (calculateEffectiveParams st).tempo = st.tempo ∧
    (calculateEffectiveParams st).overlapLength = st.overlapLength ∧
    (calculateEffectiveParams st).sampleRate = st.sampleRate ∧
    (calculateEffectiveParams st).seekWindowMs = st.seekWindowMs ∧
    (calculateEffectiveParams st).sequenceMs = st.sequenceMs ∧
    (calculateEffectiveParams st).overlapMs = st.overlapMs ∧
    (calculateEffectiveParams st).midBuffer = st.midBuffer ∧
    (calculateEffectiveParams st).inputBuffer = st.inputBuffer ∧
    (calculateEffectiveParams st).outputBuffer = st.outputBuffer := by
  unfold calculateEffectiveParams
  exact ⟨rfl, rfl, rfl, rfl, rfl, rfl, rfl, rfl, rfl⟩

theorem calcEff_seek_nonneg (st : TimeStretch) (h0 : st.seekWindowMs = 0)
    (hsr : 0 < st.sampleRate) :
    0 ≤ (calculateEffectiveParams st).seekLength := by
  unfold calculateEffectiveParams
  dsimp only
  rw [if_pos h0]
  apply Int.floor_nonneg.mpr
  apply div_nonneg _ (by norm_num)
  apply mul_nonneg hsr.le
  have := le_max_left (15 : ℚ) (min 25 (25 - (25 - 15) / (2 - 1/2) * (st.tempo - 1/2)))
  linarith

end TimeStretch

end SoundTouchLib

namespace SoundTouchLib

namespace TimeStretch

/-- The bookkeeping facts that hold when `tempo` has been set to exactly 1
with sane derived lengths: the nominal skip is the integer
`sequenceLength - overlapLength`, the skip fraction is zero, the overlap is
positive and fits twice into the sequence, and `sampleReq` covers at least a
full sequence window. -/
def tempoOneInv (st : TimeStretch) : Prop :=
  st.nominalSkip = ((st.sequenceLength - st.overlapLength : ℤ) : ℚ) ∧
  st.skipFract = 0 ∧
  0 < st.overlapLength ∧
  2 * st.overlapLength ≤ st.sequenceLength ∧
  st.sequenceLength ≤ st.sampleReq

/-- The conserved quantity of length-neutrality: output frames plus input
frames plus the one-overlap debt paid when the mid buffer was seeded. -/
def frameBalance (st : TimeStretch) : ℤ :=
  (st.outputBuffer.frameCount : ℤ) + (st.inputBuffer.frameCount : ℤ) +
    (if st.midBuffer.getD [] = [] then 0 else st.overlapLength)

theorem processBody_facts (st : TimeStretch)
    (hinv : tempoOneInv st) (hmid : st.midBuffer.getD [] ≠ [])
    (hge : st.sampleReq ≤ (st.inputBuffer.frameCount : ℤ)) :
    frameBalance (processBody st) = frameBalance st ∧
    tempoOneInv (processBody st) ∧
    (processBody st).midBuffer.getD [] ≠ [] ∧
    (processBody st).overlapLength = st.overlapLength ∧
    (processBody st).skipFract = 0 := by
  obtain ⟨hns, hsf, hov, hseq, hreq⟩ := hinv
  have hfloor : ⌊st.skipFract + st.nominalSkip⌋ = st.sequenceLength - st.overlapLength := by
    rw [hsf, hns]
    simp
  have h1 : (st.overlapLength.toNat : ℤ) = st.overlapLength :=
    Int.toNat_of_nonneg (by omega)
  have h2 : ((st.sequenceLength - 2 * st.overlapLength).toNat : ℤ)
      = st.sequenceLength - 2 * st.overlapLength :=
    Int.toNat_of_nonneg (by omega)
  have hrecv := FifoSampleBuffer.receive_exact st.inputBuffer
    (st.sequenceLength - st.overlapLength) (by omega) (by omega)
  have hskipfr : st.skipFract + st.nominalSkip -
      ((st.sequenceLength - st.overlapLength : ℤ) : ℚ) = 0 := by
    rw [hsf, hns]
    simp
  unfold processBody
  dsimp only
  by_cases hml : (0 : ℤ) < st.sequenceLength - 2 * st.overlapLength
  · simp only [if_pos hml]
    rw [hfloor]
    refine ⟨?_, ⟨?_, ?_, ?_, ?_, ?_⟩, ?_, ?_, ?_⟩
    · unfold frameBalance
      dsimp only
      simp only [Option.getD_some]
      rw [if_neg hmid, if_neg (jsSet_zero_ne_nil _ _ hmid)]
      simp only [FifoSampleBuffer.putBuffer_frameCount, FifoSampleBuffer.put_frameCount,
        FifoSampleBuffer.ensureCapacity_frameCount]
      rw [hrecv]
      push_cast
      omega
    · exact hns
    · exact hskipfr
    · exact hov
    · exact hseq
    · exact hreq
    · simp only [Option.getD_some]
      exact jsSet_zero_ne_nil _ _ hmid
    · trivial
    · exact hskipfr
  · simp only [if_neg hml]
    rw [hfloor]
    refine ⟨?_, ⟨?_, ?_, ?_, ?_, ?_⟩, ?_, ?_, ?_⟩
    · unfold frameBalance
      dsimp only
      simp only [Option.getD_some]
      rw [if_neg hmid, if_neg (jsSet_zero_ne_nil _ _ hmid)]
      simp only [FifoSampleBuffer.put_frameCount, FifoSampleBuffer.ensureCapacity_frameCount]
      rw [hrecv]
      push_cast
      omega
    · exact hns
    · exact hskipfr
    · exact hov
    · exact hseq
    · exact hreq
    · simp only [Option.getD_some]
      exact jsSet_zero_ne_nil _ _ hmid
    · trivial
    · exact hskipfr

end TimeStretch

end SoundTouchLib

namespace SoundTouchLib

namespace TimeStretch

theorem needSeed_iff (st : TimeStretch) : needSeed st = true ↔ st.midBuffer.getD [] = [] := by
  unfold needSeed
  cases st.midBuffer with
  | none => simp
  | some m => simp [List.length_eq_zero]

theorem processLoop_facts : ∀ fuel st st', tempoOneInv st →
    st.midBuffer.getD [] ≠ [] →
    processLoop fuel st = some st' →
    frameBalance st' = frameBalance st ∧ tempoOneInv st' ∧
    st'.midBuffer.getD [] ≠ [] ∧ st'.overlapLength = st.overlapLength := by
  intro fuel
  induction fuel with
  | zero => intro st st' _ _ h; simp [processLoop] at h
  | succ n ih =>
    intro st st' hinv hmid h
    rw [processLoop] at h
    split at h
    · rename_i hge
      obtain ⟨hbal, hinv2, hmid2, hov2, -⟩ := processBody_facts st hinv hmid hge
      obtain ⟨hbal', hinv', hmid', hov'⟩ := ih (processBody st) st' hinv2 hmid2 h
      exact ⟨by rw [hbal', hbal], hinv', hmid', by rw [hov', hov2]⟩
    · simp only [Option.some.injEq] at h
      rw [← h]
      exact ⟨rfl, hinv, hmid, rfl⟩

theorem process_facts (fuel : ℕ) (st st' : TimeStretch) (hinv : tempoOneInv st)
    (h : process fuel st = some st') :
    frameBalance st' = frameBalance st ∧ tempoOneInv st' ∧
    st'.overlapLength = st.overlapLength := by
  obtain ⟨hns, hsf, hov, hseq, hreq⟩ := hinv
  unfold process at h
  split at h
  · rename_i hseed
    have hmidnil : st.midBuffer.getD [] = [] := (needSeed_iff st).mp hseed
    split at h
    · simp only [Option.some.injEq] at h
      rw [← h]
      exact ⟨rfl, ⟨hns, hsf, hov, hseq, hreq⟩, rfl⟩
    · rename_i hfc
      push_neg at hfc
      dsimp only at h
      unfold FifoSampleBuffer.receiveSamples at h
      dsimp only at h
      have hrepl : (List.replicate (st.overlapLength * 2).toNat (0 : ℚ)) ≠ [] := by
        have hlen : (st.overlapLength * 2).toNat ≠ 0 := by omega
        intro hcontra
        have := congrArg List.length hcontra
        simp at this
        omega
      have hmid2 : (jsSet (List.replicate (st.overlapLength * 2).toNat 0) 0
          (jsSub st.inputBuffer.vector st.inputBuffer.startIndex
            (st.inputBuffer.startIndex + st.overlapLength.toNat * 2))) ≠ [] :=
        jsSet_zero_ne_nil _ _ hrepl
      have htn : (st.overlapLength.toNat : ℤ) = st.overlapLength :=
        Int.toNat_of_nonneg (by omega)
      have hrecv := FifoSampleBuffer.receive_exact st.inputBuffer
        (st.overlapLength.toNat : ℤ) (by omega) (by omega)
      obtain ⟨hbal, hinv', hmid', hov'⟩ := processLoop_facts fuel
        { st with
          midBuffer := some (jsSet (List.replicate (st.overlapLength * 2).toNat 0) 0
            (jsSub st.inputBuffer.vector st.inputBuffer.startIndex
              (st.inputBuffer.startIndex + st.overlapLength.toNat * 2))),
          inputBuffer := st.inputBuffer.receive (st.overlapLength.toNat : ℤ) } st'
        ⟨hns, hsf, hov, hseq, hreq⟩ hmid2 h
      refine ⟨?_, hinv', hov'⟩
      rw [hbal]
      unfold frameBalance
      dsimp only
      simp only [Option.getD_some]
      rw [if_pos hmidnil, if_neg hmid2]
      omega
  · rename_i hseed
    have hmidne : st.midBuffer.getD [] ≠ [] := by
      intro hcontra
      exact hseed ((needSeed_iff st).mpr hcontra)
    obtain ⟨hbal, hinv', hmid', hov'⟩ := processLoop_facts fuel st st'
      ⟨hns, hsf, hov, hseq, hreq⟩ hmidne h
    exact ⟨hbal, hinv', hov'⟩

/-- Total frames fed by a block sequence (each block carries
`blk.length / 2` interleaved stereo frames). -/
def totalFrames (blocks : List (List ℚ)) : ℤ :=
  blocks.foldl (fun acc b => acc + ((b.length / 2 : ℕ) : ℤ)) 0

theorem totalFrames_cons (b : List ℚ) (rest : List (List ℚ)) :
    totalFrames (b :: rest) = ((b.length / 2 : ℕ) : ℤ) + totalFrames rest := by
  unfold totalFrames
  simp only [List.foldl_cons]
  have hshift : ∀ (l : List (List ℚ)) (a : ℤ),
      l.foldl (fun acc x => acc + ((x.length / 2 : ℕ) : ℤ)) a
        = a + l.foldl (fun acc x => acc + ((x.length / 2 : ℕ) : ℤ)) 0 := by
    intro l
    induction l with
    | nil => intro a; simp
    | cons x xs ihx =>
      intro a
      simp only [List.foldl_cons]
      rw [ihx, ihx (0 + _)]
      ring
  rw [hshift _ (0 + _), hshift]
  ring

theorem runTS_facts (fuel : ℕ) : ∀ blocks st st', tempoOneInv st →
    runTS fuel st blocks = some st' →
    frameBalance st' = frameBalance st + totalFrames blocks ∧ tempoOneInv st' ∧
    st'.overlapLength = st.overlapLength := by
  intro blocks
  induction blocks with
  | nil =>
    intro st st' hinv h
    simp only [runTS, Option.some.injEq] at h
    rw [← h]
    exact ⟨by unfold totalFrames; simp, hinv, rfl⟩
  | cons blk rest ih =>
    intro st st' hinv h
    simp only [runTS] at h
    split at h
    · simp at h
    · rename_i st1 hp
      have hinvIn : tempoOneInv { st with
          inputBuffer := st.inputBuffer.putSamples blk 0 (blk.length / 2) } := hinv
      obtain ⟨hbal1, hinv1, hov1⟩ := process_facts fuel _ st1 hinvIn hp
      obtain ⟨hbal2, hinv2, hov2⟩ := ih st1 st' hinv1 h
      refine ⟨?_, hinv2, ?_⟩
      · rw [hbal2, hbal1]
        unfold frameBalance
        dsimp only
        simp only [FifoSampleBuffer.putSamples_frameCount]
        rw [totalFrames_cons]
        push_cast
        by_cases hm : st.midBuffer.getD [] = []
        · rw [if_pos hm]
          omega
        · rw [if_neg hm]
          omega
      · rw [hov2, hov1]

end TimeStretch

end SoundTouchLib

namespace SoundTouchLib

namespace TimeStretch

theorem setTempo_pres (x : TimeStretch) (v : ℚ) :
    (setTempo x v).overlapLength = x.overlapLength ∧
    (setTempo x v).sampleRate = x.sampleRate ∧
    (setTempo x v).overlapMs = x.overlapMs ∧
    (setTempo x v).midBuffer = x.midBuffer ∧
    (setTempo x v).seekWindowMs = x.seekWindowMs ∧
    (setTempo x v).inputBuffer = x.inputBuffer ∧
    (setTempo x v).outputBuffer = x.outputBuffer ∧
    (setTempo x v).tempo = v := by
  unfold setTempo
  dsimp only
  obtain ⟨h1, h2, h3, h4, h5, h6, h7, h8, h9⟩ := calcEff_pres { x with tempo := v }
  exact ⟨h2, h3, h6, h7, h4, h8, h9, h1⟩

theorem setParameters_overlap_lib (st : TimeStretch) (sr seqMs seekMs ovMs : ℚ) :
    (st.setParameters sr seqMs seekMs ovMs).overlapLength % 8 = 0 ∧
    16 ≤ (st.setParameters sr seqMs seekMs ovMs).overlapLength ∧
    (st.setParameters sr seqMs seekMs ovMs).overlapLength =
      derivedOverlapLength (st.setParameters sr seqMs seekMs ovMs).sampleRate
        (st.setParameters sr seqMs seekMs ovMs).overlapMs := by
  unfold setParameters
  dsimp only
  rw [(setTempo_pres _ _).1, (setTempo_pres _ _).2.1, (setTempo_pres _ _).2.2.1]
  unfold calculateOverlapLength
  dsimp only
  obtain ⟨-, -, hsr3, -, -, hov3, -, -, -⟩ := calcEff_pres { st with
    sampleRate := if 0 < sr then sr else st.sampleRate,
    overlapMs := if 0 < ovMs then ovMs else st.overlapMs,
    sequenceMs := seqMs, seekWindowMs := seekMs }
  rw [hsr3, hov3]
  unfold derivedOverlapLength
  dsimp only
  refine ⟨?_, ?_, rfl⟩ <;> split_ifs <;> omega

end TimeStretch

end SoundTouchLib

namespace SoundTouchLib

namespace TimeStretch

/-- The C5 start state: a fresh `TimeStretch`, configured via
`setParameters(sr, 0, 0, 16)` (auto sequence/seek), `tempo` set to exactly 1,
then `reset()` (so the mid buffer starts unseeded). -/
def c5start (sr : ℚ) : TimeStretch :=
  ((mk'.setParameters sr 0 0 16).setTempo 1).reset

theorem setTempo_one_nominal (x : TimeStretch) :
    (setTempo x 1).nominalSkip =
      (((setTempo x 1).sequenceLength - (setTempo x 1).overlapLength : ℤ) : ℚ) := by
  unfold setTempo
  dsimp only
  rw [(calcEff_pres { x with tempo := 1 }).1]
  dsimp only
  rw [one_mul]

theorem setTempo_one_req (x : TimeStretch)
    (hseek : 0 ≤ (calculateEffectiveParams { x with tempo := 1 }).seekLength) :
    (setTempo x 1).sequenceLength ≤ (setTempo x 1).sampleReq := by
  unfold setTempo
  dsimp only
  have hm := le_max_right
    (⌊(calculateEffectiveParams { x with tempo := 1 }).tempo *
       (((calculateEffectiveParams { x with tempo := 1 }).sequenceLength -
         (calculateEffectiveParams { x with tempo := 1 }).overlapLength : ℤ) : ℚ) + 1/2⌋ +
      (calculateEffectiveParams { x with tempo := 1 }).overlapLength)
    (calculateEffectiveParams { x with tempo := 1 }).sequenceLength
  omega

theorem setParameters_seekWindowMs (st : TimeStretch) (sr q k o : ℚ) :
    (st.setParameters sr q k o).seekWindowMs = k := by
  unfold setParameters
  dsimp only
  rw [(setTempo_pres _ _).2.2.2.2.1]
  unfold calculateOverlapLength
  dsimp only
  exact (calcEff_pres _).2.2.2.1

theorem setParameters_sampleRate (st : TimeStretch) (sr q k o : ℚ) (hsr : 0 < sr) :
    (st.setParameters sr q k o).sampleRate = sr := by
  unfold setParameters
  dsimp only
  rw [(setTempo_pres _ _).2.1]
  unfold calculateOverlapLength
  dsimp only
  rw [(calcEff_pres _).2.2.1]
  dsimp only
  rw [if_pos hsr]

theorem c5start_inv (sr : ℚ) (hsr : 0 < sr)
    (hseq : 2 * (c5start sr).overlapLength ≤ (c5start sr).sequenceLength) :
    tempoOneInv (c5start sr) := by
  refine ⟨?_, rfl, ?_, hseq, ?_⟩
  · exact setTempo_one_nominal (mk'.setParameters sr 0 0 16)
  · have h16 := (setParameters_overlap_lib mk' sr 0 0 16).2.1
    have hpres : (c5start sr).overlapLength =
        (mk'.setParameters sr 0 0 16).overlapLength :=
      (setTempo_pres (mk'.setParameters sr 0 0 16) 1).1
    omega
  · show (setTempo (mk'.setParameters sr 0 0 16) 1).sequenceLength ≤
      (setTempo (mk'.setParameters sr 0 0 16) 1).sampleReq
    apply setTempo_one_req
    apply calcEff_seek_nonneg
    · show (mk'.setParameters sr 0 0 16).seekWindowMs = 0
      exact setParameters_seekWindowMs mk' sr 0 0 16
    · show 0 < (mk'.setParameters sr 0 0 16).sampleRate
      rw [setParameters_sampleRate mk' sr 0 0 16 hsr]
      exact hsr

theorem c5start_balance (sr : ℚ) : frameBalance (c5start sr) = 0 := by
  unfold frameBalance c5start reset
  dsimp only
  simp only [FifoSampleBuffer.clear_frameCount, Option.getD_none, if_pos]
  simp

end TimeStretch

end SoundTouchLib

/-- C5: with tempo exactly 1.0 and auto sequence/seek parameters (under the
algorithm's documented assumption that the sequence window covers twice the
overlap), feeding any block sequence through `TimeStretch.process` keeps the
cumulative output frame count equal to the cumulative frames consumed from
the input minus the one-time mid-buffer seed of at most one overlap window,
and the skip-fraction accumulator stays exactly 0 — no long-run drift. -/
theorem c5_tempo_one_length_neutral (sr : ℚ) (blocks : List (List ℚ)) (fuel : ℕ)
    (st' : SoundTouchLib.TimeStretch) (hsr : 0 < sr)
    (hseq : 2 * (SoundTouchLib.TimeStretch.c5start sr).overlapLength ≤
      (SoundTouchLib.TimeStretch.c5start sr).sequenceLength)
    (h : SoundTouchLib.TimeStretch.runTS fuel
      (SoundTouchLib.TimeStretch.c5start sr) blocks = some st') :
    (st'.outputBuffer.frameCount : ℤ) =
      (SoundTouchLib.TimeStretch.totalFrames blocks - st'.inputBuffer.frameCount) -
      (if st'.midBuffer.getD [] = [] then 0 else st'.overlapLength) ∧
    0 ≤ (if st'.midBuffer.getD [] = [] then (0 : ℤ) else st'.overlapLength) ∧
    (if st'.midBuffer.getD [] = [] then (0 : ℤ) else st'.overlapLength) ≤
      st'.overlapLength ∧
    st'.skipFract = 0 := by
  have hinv := SoundTouchLib.TimeStretch.c5start_inv sr hsr hseq
  obtain ⟨hbal, hinv', hov'⟩ :=
    SoundTouchLib.TimeStretch.runTS_facts fuel blocks _ st' hinv h
  rw [SoundTouchLib.TimeStretch.c5start_balance, zero_add] at hbal
  unfold SoundTouchLib.TimeStretch.frameBalance at hbal
  obtain ⟨-, hsf', hov0, -, -⟩ := hinv'
  refine ⟨by omega, ?_, ?_, hsf'⟩
  · split <;> omega
  · split <;> omega

unseal Rat.add Rat.mul Rat.inv Rat.sub in
theorem c5_tempo_one_length_neutral_witness :
    ((0 : ℚ) < 44100 ∧
     2 * (SoundTouchLib.TimeStretch.c5start 44100).overlapLength ≤
       (SoundTouchLib.TimeStretch.c5start 44100).sequenceLength ∧
     SoundTouchLib.TimeStretch.runTS 1 (SoundTouchLib.TimeStretch.c5start 44100) [] =
       some ((SoundTouchLib.TimeStretch.runTS 1
         (SoundTouchLib.TimeStretch.c5start 44100) []).getD
           (SoundTouchLib.TimeStretch.c5start 44100))) ∧
    (let st' := (SoundTouchLib.TimeStretch.runTS 1
      (SoundTouchLib.TimeStretch.c5start 44100) []).getD
        (SoundTouchLib.TimeStretch.c5start 44100)
     (st'.outputBuffer.frameCount : ℤ) =
       (SoundTouchLib.TimeStretch.totalFrames [] - st'.inputBuffer.frameCount) -
       (if st'.midBuffer.getD [] = [] then 0 else st'.overlapLength) ∧
     0 ≤ (if st'.midBuffer.getD [] = [] then (0 : ℤ) else st'.overlapLength) ∧
     (if st'.midBuffer.getD [] = [] then (0 : ℤ) else st'.overlapLength) ≤
       st'.overlapLength ∧
     st'.skipFract = 0) :=
  ⟨⟨by decide, by decide, rfl⟩,
   c5_tempo_one_length_neutral 44100 [] 1 _ (by decide) (by decide) rfl⟩

namespace Worklet

/-!
The inlined worklet engine (src/src/worklet/soundtouch-processor.ts).

Its `FifoBuffer` (lines 21-103) is textually identical to the library's
`FifoSampleBuffer` (part_003 lines 16-129) except for the class name, so the
one embedding `SoundTouchLib.FifoSampleBuffer` serves both, and likewise the
`RateTransposer.transpose` loops (lines 146-192) are textually identical to
the library's (lines 180-229), so the loop embeddings `rtP1`, `rtSkip` and
`rtP2` are reused; the worklet structures and their operations are declared
separately below and the equivalence with the library versions is proved,
not assumed.
-/

/-- Worklet `RateTransposer` (soundtouch-processor.ts lines 108-193). -/
structure RateTransposer where
  rate : ℚ
  slopeCount : ℚ
  prevSampleL : ℚ
  prevSampleR : ℚ
  inputBuffer : SoundTouchLib.FifoSampleBuffer
  outputBuffer : SoundTouchLib.FifoSampleBuffer
  deriving Repr, DecidableEq

namespace RateTransposer

/-- Constructor (lines 117-120). -/
def mk' : RateTransposer :=
  ⟨1, 0, 0, 0, SoundTouchLib.FifoSampleBuffer.mk', SoundTouchLib.FifoSampleBuffer.mk'⟩

/-- `set rate(value)` (line 122). -/
def setRate (rt : RateTransposer) (v : ℚ) : RateTransposer :=
  { rt with rate := v }

/-- `reset()` (lines 125-131). -/
def reset (rt : RateTransposer) : RateTransposer :=
  { rt with slopeCount := 0, prevSampleL := 0, prevSampleR := 0,
            inputBuffer := rt.inputBuffer.clear, outputBuffer := rt.outputBuffer.clear }

/-- `transpose(numFrames)` (lines 146-192), textually identical to the
library version; the shared loop embeddings are applied to this structure's
fields. -/
def transpose (fuel : ℕ) (rt : RateTransposer) (numFrames : ℕ) :
    Option (RateTransposer × ℕ × List (ℚ × ℚ)) :=
  if numFrames = 0 then some (rt, 0, [])
  else
    let input := rt.inputBuffer.vector
    let inputStart := rt.inputBuffer.startIndex
    let outputStart := rt.outputBuffer.endIndex
    match SoundTouchLib.RateTransposer.rtP1 rt.rate (getQ input inputStart)
        (getQ input (inputStart + 1)) rt.prevSampleL rt.prevSampleR fuel rt.slopeCount with
    | none => none
    | some (em1, sExit) =>
      let s1 := sExit - 1
      match (if 1 < numFrames then
              SoundTouchLib.RateTransposer.rtP2 rt.rate input inputStart numFrames fuel s1 0
             else some ([], s1)) with
      | none => none
      | some (em2, s2) =>
        let emitted := em1 ++ em2
        some ({ rt with
                  slopeCount := s2
                  prevSampleL := getQ input (inputStart + (numFrames - 1) * 2)
                  prevSampleR := getQ input (inputStart + (numFrames - 1) * 2 + 1)
                  outputBuffer := { rt.outputBuffer with
                    vector := writeFrames rt.outputBuffer.vector outputStart emitted } },
              emitted.length, emitted)

/-- `process()` (lines 133-144). -/
def process (fuel : ℕ) (rt : RateTransposer) : Option (RateTransposer × List (ℚ × ℚ)) :=
  let numFrames := rt.inputBuffer.frameCount
  if numFrames = 0 then some (rt, [])
  else
    let grown := rt.outputBuffer.ensureCapacity
      ((rt.outputBuffer.frameCount : ℤ) + ⌈(numFrames : ℚ) / rt.rate⌉ + 1)
    let rt1 := { rt with outputBuffer := grown }
    match transpose fuel rt1 numFrames with
    | none => none
    | some (rt2, outputCount, emitted) =>
      some ({ rt2 with inputBuffer := rt2.inputBuffer.receive numFrames,
                       outputBuffer := rt2.outputBuffer.put outputCount }, emitted)

end RateTransposer

/-- Worklet `TimeStretch` (soundtouch-processor.ts lines 198-375): like the
library version but with the sequence/seek/overlap durations fixed to the
auto behaviour (no stored ms fields). -/
structure TimeStretch where
  sampleRate : ℚ
  tempo : ℚ
  sequenceLength : ℤ
  seekLength : ℤ
  overlapLength : ℤ
  nominalSkip : ℚ
  skipFract : ℚ
  midBuffer : Option (List ℚ)
  refMidBuffer : Option (List ℚ)
  sampleReq : ℤ
  inputBuffer : SoundTouchLib.FifoSampleBuffer
  outputBuffer : SoundTouchLib.FifoSampleBuffer
  deriving Repr, DecidableEq

namespace TimeStretch

/-- Constructor state (lines 199-225). -/
def mk' : TimeStretch :=
  { sampleRate := 44100, tempo := 1, sequenceLength := 0, seekLength := 0,
    overlapLength := 0, nominalSkip := 0, skipFract := 0, midBuffer := none,
    refMidBuffer := none, sampleReq := 0,
    inputBuffer := SoundTouchLib.FifoSampleBuffer.mk',
    outputBuffer := SoundTouchLib.FifoSampleBuffer.mk' }

/-- `calculateEffectiveParams()` (lines 252-264): the always-auto formulas. -/
def calculateEffectiveParams (st : TimeStretch) : TimeStretch :=
  let seqMs : ℚ := 125 - (125 - 50) / (2 - 1/2) * (st.tempo - 1/2)
  let seekMs : ℚ := 25 - (25 - 15) / (2 - 1/2) * (st.tempo - 1/2)
  { st with
    sequenceLength := ⌊st.sampleRate * max 50 (min 125 seqMs) / 1000⌋,
    seekLength := ⌊st.sampleRate * max 15 (min 25 seekMs) / 1000⌋ }

/-- `calculateOverlapLength(overlapMs)` (lines 266-273): the overlap duration
is a parameter here, not a stored field. -/
def calculateOverlapLength (st : TimeStretch) (overlapMs : ℚ) : TimeStretch :=
  let overlap0 : ℤ := ⌊st.sampleRate * overlapMs / 1000⌋
  let overlap1 : ℤ := if overlap0 < 16 then 16 else overlap0
  let overlap : ℤ := overlap1 - overlap1 % 8
  { st with overlapLength := overlap,
            refMidBuffer := some (List.replicate (overlap * 2).toNat 0),
            midBuffer := some (List.replicate (overlap * 2).toNat 0) }

/-- `set tempo(value)` (lines 234-241). -/
def setTempo (st : TimeStretch) (v : ℚ) : TimeStretch :=
  let st2 := calculateEffectiveParams { st with tempo := v }
  let nominalSkip : ℚ := st2.tempo * ((st2.sequenceLength - st2.overlapLength : ℤ) : ℚ)
  let skip : ℤ := ⌊nominalSkip + 1/2⌋
  { st2 with nominalSkip := nominalSkip, skipFract := 0,
             sampleReq := max (skip + st2.overlapLength) st2.sequenceLength + st2.seekLength }

/-- `setParameters(sampleRate, overlapMs)` (lines 227-232). -/
def setParameters (st : TimeStretch) (sampleRate : ℚ) (overlapMs : ℚ := 16) : TimeStretch :=
  let st1 := { st with
    sampleRate := if 0 < sampleRate then sampleRate else st.sampleRate }
  let st4 := calculateOverlapLength (calculateEffectiveParams st1) overlapMs
  setTempo st4 st4.tempo

/-- `reset()` (lines 245-250). -/
def reset (st : TimeStretch) : TimeStretch :=
  { st with midBuffer := none, skipFract := 0,
            inputBuffer := st.inputBuffer.clear,
            outputBuffer := st.outputBuffer.clear }

/-- `calculateCrossCorr(offset)` (lines 312-323), identical to the library
version. -/
def calculateCrossCorr (st : TimeStretch) (offset : ℕ) : ℚ :=
  let input := st.inputBuffer.vector
  let inputStart := st.inputBuffer.startIndex + offset
  let ref := st.refMidBuffer.getD []
  ((List.range st.overlapLength.toNat).drop 1).foldl (fun (corr : ℚ) (k : ℕ) =>
    corr + getQ input (inputStart + 2 * k) * getQ ref (2 * k)
         + getQ input (inputStart + 2 * k + 1) * getQ ref (2 * k + 1)) 0

/-- `seekBestOverlapPositionQuick()` (lines 280-301); the scan table
(lines 212-217) is entry-for-entry the library's `SCAN_OFFSETS`. -/
def seekQuick (st : TimeStretch) : ℤ :=
  (SoundTouchLib.TimeStretch.SCAN_OFFSETS.foldl (fun (acc : ℚ × ℤ) row =>
    let corrOffset := acc.2
    (row.takeWhile (fun x => x ≠ 0)).foldl (fun (a : ℚ × ℤ) entry =>
      let testOffset := corrOffset + entry
      if 0 ≤ testOffset ∧ testOffset < st.seekLength then
        let corr := calculateCrossCorr st (testOffset * 2).toNat
        if corr > a.1 then (corr, testOffset) else a
      else a) acc) (jsNumberMinValue, 0)).2

/-- `overlap(offset)` (lines 325-342), identical to the library version. -/
def overlapFrames (st : TimeStretch) (offset : ℕ) : List (ℚ × ℚ) :=
  let input := st.inputBuffer.vector
  let inputStart := st.inputBuffer.startIndex + offset * 2
  let mid := st.midBuffer.getD []
  let invOverlap : ℚ := 1 / (st.overlapLength : ℚ)
  (List.range st.overlapLength.toNat).map (fun (i : ℕ) =>
    let fadeOut : ℚ := ((st.overlapLength : ℚ) - (i : ℚ)) * invOverlap
    let fadeIn : ℚ := (i : ℚ) * invOverlap
    (getQ input (inputStart + i * 2) * fadeIn + getQ mid (i * 2) * fadeOut,
     getQ input (inputStart + i * 2 + 1) * fadeIn + getQ mid (i * 2 + 1) * fadeOut))

/-- Body of the `process()` while loop (lines 352-372), identical to the
library version. -/
def processBody (st : TimeStretch) : TimeStretch :=
  let stR := { st with refMidBuffer := (some (SoundTouchLib.TimeStretch.precalcLoop
    (st.refMidBuffer.getD []) (st.midBuffer.getD []) st.overlapLength.toNat)) }
  let offset : ℤ := seekQuick stR
  let st1 := { stR with outputBuffer := (stR.outputBuffer.ensureCapacity
    ((stR.outputBuffer.frameCount : ℤ) + stR.overlapLength)) }
  let st2 := { st1 with outputBuffer := { st1.outputBuffer with
    vector := (writeFrames st1.outputBuffer.vector st1.outputBuffer.endIndex
      (overlapFrames st1 offset.toNat)) } }
  let st3 := { st2 with outputBuffer := st2.outputBuffer.put st2.overlapLength.toNat }
  let middleLength : ℤ := st3.sequenceLength - 2 * st3.overlapLength
  let st4 := if 0 < middleLength then
      { st3 with outputBuffer := (st3.outputBuffer.putBuffer st3.inputBuffer
          (offset.toNat + st3.overlapLength.toNat) middleLength.toNat) }
    else st3
  let midStart := st4.inputBuffer.startIndex +
    (offset.toNat + st4.sequenceLength.toNat - st4.overlapLength.toNat) * 2
  let st5 := { st4 with midBuffer := (some (jsSet (st4.midBuffer.getD []) 0
    (jsSub st4.inputBuffer.vector midStart (midStart + st4.overlapLength.toNat * 2)))) }
  let skipFract1 := st5.skipFract + st5.nominalSkip
  let skip : ℤ := ⌊skipFract1⌋
  { st5 with skipFract := skipFract1 - (skip : ℚ),
             inputBuffer := st5.inputBuffer.receive skip }

/-- The `process()` while loop (lines 351-373). -/
def processLoop : ℕ → TimeStretch → Option TimeStretch
  | 0, _ => none
  | fuel + 1, st =>
    if st.sampleReq ≤ (st.inputBuffer.frameCount : ℤ) then
      processLoop fuel (processBody st)
    else some st

/-- Guard of the first-call branch (line 345). -/
def needSeed (st : TimeStretch) : Bool :=
  match st.midBuffer with
  | none => true
  | some m => m.length == 0

/-- `process()` (lines 344-374). -/
def process (fuel : ℕ) (st : TimeStretch) : Option TimeStretch :=
  if needSeed st then
    if (st.inputBuffer.frameCount : ℤ) < st.overlapLength then some st
    else
      let pr := st.inputBuffer.receiveSamples
        (List.replicate (st.overlapLength * 2).toNat 0) st.overlapLength.toNat
      processLoop fuel { st with midBuffer := some pr.1, inputBuffer := pr.2 }
  else processLoop fuel st

end TimeStretch

end Worklet

/-- Forget map from the library `RateTransposer` state to the worklet
`RateTransposer` state (the two structures have the same fields). -/
def projRT (rt : SoundTouchLib.RateTransposer) : Worklet.RateTransposer :=
  ⟨rt.rate, rt.slopeCount, rt.prevSampleL, rt.prevSampleR, rt.inputBuffer, rt.outputBuffer⟩

theorem projRT_transpose (fuel n : ℕ) (a b c d : ℚ)
    (ib ob : SoundTouchLib.FifoSampleBuffer) :
    Worklet.RateTransposer.transpose fuel ⟨a, b, c, d, ib, ob⟩ n
      = (SoundTouchLib.RateTransposer.transpose fuel ⟨a, b, c, d, ib, ob⟩ n).map
          (fun p => (projRT p.1, p.2)) := by
  unfold Worklet.RateTransposer.transpose SoundTouchLib.RateTransposer.transpose
  by_cases h0 : n = 0
  · simp only [if_pos h0]; rfl
  · simp only [if_neg h0]
    cases SoundTouchLib.RateTransposer.rtP1 a (getQ ib.vector ib.startIndex)
        (getQ ib.vector (ib.startIndex + 1)) c d fuel b with
    | none => rfl
    | some q =>
      obtain ⟨em1, sE⟩ := q
      dsimp only
      cases hif : (if 1 < n then
          SoundTouchLib.RateTransposer.rtP2 a ib.vector ib.startIndex n fuel (sE - 1) 0
        else some ([], sE - 1)) with
      | none => rfl
      | some q2 =>
        obtain ⟨em2, s2⟩ := q2
        rfl

theorem projRT_process (fuel : ℕ) (rt : SoundTouchLib.RateTransposer) :
    Worklet.RateTransposer.process fuel (projRT rt)
      = (SoundTouchLib.RateTransposer.process fuel rt).map
          (fun p => (projRT p.1, p.2)) := by
  unfold Worklet.RateTransposer.process SoundTouchLib.RateTransposer.process
  dsimp only [projRT]
  by_cases h0 : rt.inputBuffer.frameCount = 0
  · simp only [if_pos h0]; rfl
  · simp only [if_neg h0]
    rw [projRT_transpose]
    cases SoundTouchLib.RateTransposer.transpose fuel
        ⟨rt.rate, rt.slopeCount, rt.prevSampleL, rt.prevSampleR, rt.inputBuffer,
          rt.outputBuffer.ensureCapacity ((rt.outputBuffer.frameCount : ℤ)
            + ⌈(rt.inputBuffer.frameCount : ℚ) / rt.rate⌉ + 1)⟩
        rt.inputBuffer.frameCount with
    | none => rfl
    | some q =>
      obtain ⟨rt2, oc, em⟩ := q
      rfl

/-- One step of the shared driver script for a transposer: buffer a block of
interleaved samples, set the rate, or call `process()`. -/
inductive RTOp where
  | putBlock : List ℚ → RTOp
  | setRateOp : ℚ → RTOp
  | processOp : RTOp
  deriving Repr, DecidableEq

/-- Run a driver script against the library transposer, accumulating every
frame emitted by the `process()` calls. -/
def runLibRTOps (fuel : ℕ) :
    SoundTouchLib.RateTransposer → List RTOp →
      Option (SoundTouchLib.RateTransposer × List (ℚ × ℚ))
  | rt, [] => some (rt, [])
  | rt, RTOp.putBlock blk :: rest =>
    runLibRTOps fuel
      { rt with inputBuffer := rt.inputBuffer.putSamples blk 0 (blk.length / 2) } rest
  | rt, RTOp.setRateOp v :: rest => runLibRTOps fuel (rt.setRate v) rest
  | rt, RTOp.processOp :: rest =>
    match SoundTouchLib.RateTransposer.process fuel rt with
    | none => none
    | some (rt', em) =>
      match runLibRTOps fuel rt' rest with
      | none => none
      | some (rtF, ems) => some (rtF, em ++ ems)

/-- Run the same driver script against the worklet transposer. -/
def runWkRTOps (fuel : ℕ) :
    Worklet.RateTransposer → List RTOp →
      Option (Worklet.RateTransposer × List (ℚ × ℚ))
  | rt, [] => some (rt, [])
  | rt, RTOp.putBlock blk :: rest =>
    runWkRTOps fuel
      { rt with inputBuffer := rt.inputBuffer.putSamples blk 0 (blk.length / 2) } rest
  | rt, RTOp.setRateOp v :: rest => runWkRTOps fuel (rt.setRate v) rest
  | rt, RTOp.processOp :: rest =>
    match Worklet.RateTransposer.process fuel rt with
    | none => none
    | some (rt', em) =>
      match runWkRTOps fuel rt' rest with
      | none => none
      | some (rtF, ems) => some (rtF, em ++ ems)

theorem runRTOps_eq (fuel : ℕ) (ops : List RTOp) :
    ∀ rt : SoundTouchLib.RateTransposer,
    runWkRTOps fuel (projRT rt) ops
      = (runLibRTOps fuel rt ops).map (fun p => (projRT p.1, p.2)) := by
  induction ops with
  | nil => intro rt; rfl
  | cons op rest ih =>
    intro rt
    cases op with
    | putBlock blk =>
      simp only [runWkRTOps, runLibRTOps]
      exact ih { rt with inputBuffer := rt.inputBuffer.putSamples blk 0 (blk.length / 2) }
    | setRateOp v =>
      simp only [runWkRTOps, runLibRTOps]
      exact ih (rt.setRate v)
    | processOp =>
      simp only [runWkRTOps, runLibRTOps]
      rw [projRT_process]
      cases SoundTouchLib.RateTransposer.process fuel rt with
      | none => rfl
      | some p =>
        obtain ⟨rt', em⟩ := p
        simp only [Option.map_some']
        rw [ih rt']
        cases runLibRTOps fuel rt' rest with
        | none => rfl
        | some q => rfl

/-- Forget map from the library `TimeStretch` state to the worklet
`TimeStretch` state: drop the three stored millisecond durations, which the
worklet variant does not keep. -/
def projTS (st : SoundTouchLib.TimeStretch) : Worklet.TimeStretch :=
  ⟨st.sampleRate, st.tempo, st.sequenceLength, st.seekLength, st.overlapLength,
   st.nominalSkip, st.skipFract, st.midBuffer, st.refMidBuffer, st.sampleReq,
   st.inputBuffer, st.outputBuffer⟩

theorem projTS_calcEff (st : SoundTouchLib.TimeStretch)
    (h1 : st.sequenceMs = 0) (h2 : st.seekWindowMs = 0) :
    Worklet.TimeStretch.calculateEffectiveParams (projTS st)
      = projTS st.calculateEffectiveParams := by
  unfold Worklet.TimeStretch.calculateEffectiveParams
    SoundTouchLib.TimeStretch.calculateEffectiveParams
  simp only [h1, h2, eq_self_iff_true, if_true]
  rfl

theorem projTS_calcOverlap (st : SoundTouchLib.TimeStretch) (ovMs : ℚ)
    (ho : st.overlapMs = ovMs) :
    Worklet.TimeStretch.calculateOverlapLength (projTS st) ovMs
      = projTS st.calculateOverlapLength := by
  unfold Worklet.TimeStretch.calculateOverlapLength
    SoundTouchLib.TimeStretch.calculateOverlapLength
  rw [ho]
  rfl

theorem projTS_setTempo (st : SoundTouchLib.TimeStretch) (v : ℚ)
    (h1 : st.sequenceMs = 0) (h2 : st.seekWindowMs = 0) :
    Worklet.TimeStretch.setTempo (projTS st) v = projTS (st.setTempo v) := by
  have hc : Worklet.TimeStretch.calculateEffectiveParams (projTS { st with tempo := v })
      = projTS (SoundTouchLib.TimeStretch.calculateEffectiveParams { st with tempo := v }) :=
    projTS_calcEff { st with tempo := v } h1 h2
  unfold Worklet.TimeStretch.setTempo SoundTouchLib.TimeStretch.setTempo
  rw [show ({ projTS st with tempo := v } : Worklet.TimeStretch)
        = projTS { st with tempo := v } from rfl, hc]
  rfl

theorem projTS_setParameters (st : SoundTouchLib.TimeStretch) (sr ovMs : ℚ)
    (hov : 0 < ovMs) :
    Worklet.TimeStretch.setParameters (projTS st) sr ovMs
      = projTS (st.setParameters sr 0 0 ovMs) := by
  unfold Worklet.TimeStretch.setParameters SoundTouchLib.TimeStretch.setParameters
  simp only [if_pos hov]
  rw [show ({ projTS st with
        sampleRate := if 0 < sr then sr else (projTS st).sampleRate } : Worklet.TimeStretch)
      = projTS { st with sampleRate := if 0 < sr then sr else st.sampleRate,
                         overlapMs := ovMs, sequenceMs := 0, seekWindowMs := 0 } from rfl]
  rw [projTS_calcEff _ rfl rfl, projTS_calcOverlap _ ovMs rfl]
  exact projTS_setTempo _ _ rfl rfl

theorem seekQuick_drop (sr t sms skms oms : ℚ) (sl sk ol : ℤ) (ns sf : ℚ)
    (mb rb : Option (List ℚ)) (sq : ℤ) (ib ob : SoundTouchLib.FifoSampleBuffer) :
    SoundTouchLib.TimeStretch.seekQuick
        ⟨sr, t, sms, skms, oms, sl, sk, ol, ns, sf, mb, rb, sq, ib, ob⟩
      = Worklet.TimeStretch.seekQuick ⟨sr, t, sl, sk, ol, ns, sf, mb, rb, sq, ib, ob⟩ := rfl

theorem overlapFrames_drop (sr t sms skms oms : ℚ) (sl sk ol : ℤ) (ns sf : ℚ)
    (mb rb : Option (List ℚ)) (sq : ℤ) (ib ob : SoundTouchLib.FifoSampleBuffer) (off : ℕ) :
    SoundTouchLib.TimeStretch.overlapFrames
        ⟨sr, t, sms, skms, oms, sl, sk, ol, ns, sf, mb, rb, sq, ib, ob⟩ off
      = Worklet.TimeStretch.overlapFrames ⟨sr, t, sl, sk, ol, ns, sf, mb, rb, sq, ib, ob⟩ off :=
  rfl

theorem projTS_processBody (st : SoundTouchLib.TimeStretch) :
    Worklet.TimeStretch.processBody (projTS st) = projTS st.processBody := by
  unfold Worklet.TimeStretch.processBody SoundTouchLib.TimeStretch.processBody
  dsimp only [projTS]
  by_cases hm : 0 < st.sequenceLength - 2 * st.overlapLength
  · simp only [if_pos hm, seekQuick_drop, overlapFrames_drop]
  · simp only [if_neg hm, seekQuick_drop, overlapFrames_drop]

theorem projTS_processLoop (fuel : ℕ) :
    ∀ st : SoundTouchLib.TimeStretch,
    Worklet.TimeStretch.processLoop fuel (projTS st)
      = (SoundTouchLib.TimeStretch.processLoop fuel st).map projTS := by
  induction fuel with
  | zero => intro st; rfl
  | succ n ih =>
    intro st
    simp only [Worklet.TimeStretch.processLoop, SoundTouchLib.TimeStretch.processLoop]
    have e1 : (projTS st).sampleReq = st.sampleReq := rfl
    have e2 : (projTS st).inputBuffer = st.inputBuffer := rfl
    rw [e1, e2]
    by_cases h : st.sampleReq ≤ (st.inputBuffer.frameCount : ℤ)
    · simp only [if_pos h]
      rw [projTS_processBody]
      exact ih st.processBody
    · simp only [if_neg h]
      rfl

theorem projTS_process (fuel : ℕ) (st : SoundTouchLib.TimeStretch) :
    Worklet.TimeStretch.process fuel (projTS st)
      = (SoundTouchLib.TimeStretch.process fuel st).map projTS := by
  simp only [Worklet.TimeStretch.process, SoundTouchLib.TimeStretch.process]
  have hns : Worklet.TimeStretch.needSeed (projTS st)
      = SoundTouchLib.TimeStretch.needSeed st := rfl
  have e1 : (projTS st).inputBuffer = st.inputBuffer := rfl
  have e2 : (projTS st).overlapLength = st.overlapLength := rfl
  rw [hns, e1, e2]
  by_cases h : SoundTouchLib.TimeStretch.needSeed st
  · simp only [if_pos h]
    by_cases h2 : (st.inputBuffer.frameCount : ℤ) < st.overlapLength
    · simp only [if_pos h2]; rfl
    · simp only [if_neg h2]
      exact projTS_processLoop fuel
        { st with
          midBuffer := some (st.inputBuffer.receiveSamples
            (List.replicate (st.overlapLength * 2).toNat 0) st.overlapLength.toNat).1,
          inputBuffer := (st.inputBuffer.receiveSamples
            (List.replicate (st.overlapLength * 2).toNat 0) st.overlapLength.toNat).2 }
  · simp only [if_neg h]
    exact projTS_processLoop fuel st

theorem processBody_msPres (st : SoundTouchLib.TimeStretch) :
    st.processBody.sequenceMs = st.sequenceMs
      ∧ st.processBody.seekWindowMs = st.seekWindowMs := by
  unfold SoundTouchLib.TimeStretch.processBody
  dsimp only
  by_cases hm : 0 < st.sequenceLength - 2 * st.overlapLength
  · simp only [if_pos hm]; constructor <;> trivial
  · simp only [if_neg hm]; constructor <;> trivial

theorem processLoop_msPres (fuel : ℕ) :
    ∀ st st' : SoundTouchLib.TimeStretch,
    SoundTouchLib.TimeStretch.processLoop fuel st = some st' →
    st'.sequenceMs = st.sequenceMs ∧ st'.seekWindowMs = st.seekWindowMs := by
  induction fuel with
  | zero => intro st st' h; exact absurd h (by simp [SoundTouchLib.TimeStretch.processLoop])
  | succ n ih =>
    intro st st' h
    simp only [SoundTouchLib.TimeStretch.processLoop] at h
    by_cases hc : st.sampleReq ≤ (st.inputBuffer.frameCount : ℤ)
    · simp only [if_pos hc] at h
      obtain ⟨ha, hb⟩ := ih _ _ h
      obtain ⟨hc1, hc2⟩ := processBody_msPres st
      exact ⟨ha.trans hc1, hb.trans hc2⟩
    · simp only [if_neg hc] at h
      cases h
      exact ⟨rfl, rfl⟩

theorem process_msPres (fuel : ℕ) (st st' : SoundTouchLib.TimeStretch)
    (h : SoundTouchLib.TimeStretch.process fuel st = some st') :
    st'.sequenceMs = st.sequenceMs ∧ st'.seekWindowMs = st.seekWindowMs := by
  unfold SoundTouchLib.TimeStretch.process at h
  by_cases hs : SoundTouchLib.TimeStretch.needSeed st
  · simp only [if_pos hs] at h
    by_cases h2 : (st.inputBuffer.frameCount : ℤ) < st.overlapLength
    · simp only [if_pos h2] at h
      cases h
      exact ⟨rfl, rfl⟩
    · simp only [if_neg h2] at h
      obtain ⟨ha, hb⟩ := processLoop_msPres fuel
        { st with
          midBuffer := some (st.inputBuffer.receiveSamples
            (List.replicate (st.overlapLength * 2).toNat 0) st.overlapLength.toNat).1,
          inputBuffer := (st.inputBuffer.receiveSamples
            (List.replicate (st.overlapLength * 2).toNat 0) st.overlapLength.toNat).2 }
        st' h
      exact ⟨ha, hb⟩
  · simp only [if_neg hs] at h
    exact processLoop_msPres fuel _ _ h

/-- One step of the shared driver script for a time stretcher: buffer a block
of interleaved samples, set the tempo, or call `process()`. -/
inductive TSOp where
  | putBlock : List ℚ → TSOp
  | setTempoOp : ℚ → TSOp
  | processOp : TSOp
  deriving Repr, DecidableEq

/-- Run a driver script against the library stretcher. -/
def runLibTSOps (fuel : ℕ) :
    SoundTouchLib.TimeStretch → List TSOp → Option SoundTouchLib.TimeStretch
  | st, [] => some st
  | st, TSOp.putBlock blk :: rest =>
    runLibTSOps fuel
      { st with inputBuffer := st.inputBuffer.putSamples blk 0 (blk.length / 2) } rest
  | st, TSOp.setTempoOp v :: rest => runLibTSOps fuel (st.setTempo v) rest
  | st, TSOp.processOp :: rest =>
    match SoundTouchLib.TimeStretch.process fuel st with
    | none => none
    | some st' => runLibTSOps fuel st' rest

/-- Run the same driver script against the worklet stretcher. -/
def runWkTSOps (fuel : ℕ) :
    Worklet.TimeStretch → List TSOp → Option Worklet.TimeStretch
  | st, [] => some st
  | st, TSOp.putBlock blk :: rest =>
    runWkTSOps fuel
      { st with inputBuffer := st.inputBuffer.putSamples blk 0 (blk.length / 2) } rest
  | st, TSOp.setTempoOp v :: rest => runWkTSOps fuel (st.setTempo v) rest
  | st, TSOp.processOp :: rest =>
    match Worklet.TimeStretch.process fuel st with
    | none => none
    | some st' => runWkTSOps fuel st' rest

theorem runTSOps_eq (fuel : ℕ) (ops : List TSOp) :
    ∀ st : SoundTouchLib.TimeStretch, st.sequenceMs = 0 → st.seekWindowMs = 0 →
    runWkTSOps fuel (projTS st) ops = (runLibTSOps fuel st ops).map projTS := by
  induction ops with
  | nil => intro st _ _; rfl
  | cons op rest ih =>
    intro st h1 h2
    cases op with
    | putBlock blk =>
      simp only [runWkTSOps, runLibTSOps]
      exact ih { st with inputBuffer := st.inputBuffer.putSamples blk 0 (blk.length / 2) } h1 h2
    | setTempoOp v =>
      simp only [runWkTSOps, runLibTSOps]
      rw [projTS_setTempo st v h1 h2]
      exact ih (st.setTempo v) h1 h2
    | processOp =>
      simp only [runWkTSOps, runLibTSOps]
      rw [projTS_process]
      cases hp : SoundTouchLib.TimeStretch.process fuel st with
      | none => rfl
      | some st' =>
        simp only [Option.map_some']
        obtain ⟨ha, hb⟩ := process_msPres fuel st st' hp
        exact ih st' (ha.trans h1) (hb.trans h2)

/-- C10: with a positive overlap duration, the same sample rate and auto
sequence/seek parameters (`sequenceMs = seekWindowMs = 0`), the inlined
worklet `RateTransposer` and `TimeStretch` and the library versions produce
identical internal state (hence identical output buffer contents) after
every driver step — buffering blocks, changing tempo or rate, and calling
`process()` — and the transposers emit identical frame streams; the worklet
stretcher state is the library state with the stored millisecond fields
dropped.  (For overlap duration 0 the two `setParameters` diverge: the
library retains its previous overlap duration, the worklet clamps to the
16-frame minimum; see the counterexample.) -/
theorem c10_engine_variants_equivalent (sr ovMs : ℚ) (hov : 0 < ovMs)
    (tsOps : List TSOp) (rtOps : List RTOp) (fuel : ℕ) :
    runWkTSOps fuel (Worklet.TimeStretch.mk'.setParameters sr ovMs) tsOps
        = (runLibTSOps fuel
            (SoundTouchLib.TimeStretch.mk'.setParameters sr 0 0 ovMs) tsOps).map projTS
      ∧ ∀ rt : SoundTouchLib.RateTransposer,
          runWkRTOps fuel (projRT rt) rtOps
            = (runLibRTOps fuel rt rtOps).map (fun p => (projRT p.1, p.2)) := by
  constructor
  · have h0 : Worklet.TimeStretch.mk'.setParameters sr ovMs
        = projTS (SoundTouchLib.TimeStretch.mk'.setParameters sr 0 0 ovMs) := by
      rw [show Worklet.TimeStretch.mk' = projTS SoundTouchLib.TimeStretch.mk' from rfl]
      exact projTS_setParameters SoundTouchLib.TimeStretch.mk' sr ovMs hov
    rw [h0]
    exact runTSOps_eq fuel tsOps (SoundTouchLib.TimeStretch.mk'.setParameters sr 0 0 ovMs)
      rfl rfl
  · intro rt
    exact runRTOps_eq fuel rtOps rt

/-- Witness for C10 at sample rate 44100, overlap 16 ms, singleton scripts. -/
theorem c10_engine_variants_equivalent_witness :
    (0 : ℚ) < 16 ∧
    (runWkTSOps 1 (Worklet.TimeStretch.mk'.setParameters 44100 16) [TSOp.setTempoOp 1]
        = (runLibTSOps 1
            (SoundTouchLib.TimeStretch.mk'.setParameters 44100 0 0 16)
            [TSOp.setTempoOp 1]).map projTS
      ∧ ∀ rt : SoundTouchLib.RateTransposer,
          runWkRTOps 1 (projRT rt) [RTOp.setRateOp 2]
            = (runLibRTOps 1 rt [RTOp.setRateOp 2]).map (fun p => (projRT p.1, p.2))) :=
  ⟨by norm_num,
   c10_engine_variants_equivalent 44100 16 (by norm_num) [TSOp.setTempoOp 1]
     [RTOp.setRateOp 2] 1⟩

unseal Rat.add Rat.mul Rat.inv Rat.sub in
/-- Counterexample to the unqualified C10: calling `setParameters` with
overlap duration 0 ms at sample rate 44100 leaves the library stretcher with
overlap length 704 (it keeps its previous 16 ms duration) but the worklet
stretcher with overlap length 16 (it clamps the computed 0 to the 16-frame
minimum), so the internal states differ. -/
theorem c10_counterexample :
    (Worklet.TimeStretch.mk'.setParameters 44100 0).overlapLength = 16 ∧
    (SoundTouchLib.TimeStretch.mk'.setParameters 44100 0 0 0).overlapLength = 704 ∧
    (Worklet.TimeStretch.mk'.setParameters 44100 0).overlapLength
      ≠ (SoundTouchLib.TimeStretch.mk'.setParameters 44100 0 0 0).overlapLength := by
  refine ⟨by decide, by decide, by decide⟩

theorem setTempo_pres_wk (y : Worklet.TimeStretch) (v : ℚ) :
    (y.setTempo v).overlapLength = y.overlapLength
      ∧ (y.setTempo v).sampleRate = y.sampleRate := ⟨rfl, rfl⟩

theorem setParameters_overlap_wk (st : Worklet.TimeStretch) (sr ovMs : ℚ) :
    (st.setParameters sr ovMs).overlapLength % 8 = 0 ∧
    16 ≤ (st.setParameters sr ovMs).overlapLength ∧
    (st.setParameters sr ovMs).overlapLength =
      SoundTouchLib.TimeStretch.derivedOverlapLength (st.setParameters sr ovMs).sampleRate ovMs := by
  unfold Worklet.TimeStretch.setParameters
  dsimp only
  rw [(setTempo_pres_wk _ _).1, (setTempo_pres_wk _ _).2]
  unfold Worklet.TimeStretch.calculateOverlapLength
  dsimp only
  unfold SoundTouchLib.TimeStretch.derivedOverlapLength
  dsimp only
  refine ⟨?_, ?_, rfl⟩ <;> split_ifs <;> omega

/-- C9: for every sample rate and overlap duration passed to
`setParameters`, both the library and worklet stretchers derive an overlap
length that is a multiple of 8 and at least 16 frames, and recompute it on
every `setParameters` call as `derivedOverlapLength` of the current sample
rate and overlap duration (the stored one for the library, the passed one
for the worklet). -/
theorem c9_overlap_length_invariant (stL : SoundTouchLib.TimeStretch)
    (stW : Worklet.TimeStretch) (sr seqMs seekMs ovMs : ℚ) :
    ((stL.setParameters sr seqMs seekMs ovMs).overlapLength % 8 = 0 ∧
     16 ≤ (stL.setParameters sr seqMs seekMs ovMs).overlapLength ∧
     (stL.setParameters sr seqMs seekMs ovMs).overlapLength =
       SoundTouchLib.TimeStretch.derivedOverlapLength
         (stL.setParameters sr seqMs seekMs ovMs).sampleRate
         (stL.setParameters sr seqMs seekMs ovMs).overlapMs) ∧
    ((stW.setParameters sr ovMs).overlapLength % 8 = 0 ∧
     16 ≤ (stW.setParameters sr ovMs).overlapLength ∧
     (stW.setParameters sr ovMs).overlapLength =
       SoundTouchLib.TimeStretch.derivedOverlapLength
         (stW.setParameters sr ovMs).sampleRate ovMs) :=
  ⟨SoundTouchLib.TimeStretch.setParameters_overlap_lib stL sr seqMs seekMs ovMs,
   setParameters_overlap_wk stW sr ovMs⟩

namespace Rubberband

/-!
The external-stretcher adapter (src/unnamed/part_000, `RubberbandProcessor`).
The WASM stretcher is external state, so its per-block answers are oracle
arguments: `available` (the `_rubberband_available` result after feeding the
block) and `retrieved` (the per-channel processed frames a successful
`_rubberband_retrieve` exposes).  `Math.sin`/`Math.cos` on the irrational
crossfade angle are abstracted as oracle functions `sinQ`/`cosQ` of the fade
progress.  JS numbers are modelled as exact rationals throughout.
-/

/-- The adapter state fields read or written by `process()` (lines 106-124):
`stretcher` is the WASM handle (0 = null), `hasWasm` models the `wasm`
null check. -/
structure RubberbandProcessor where
  ready : Bool
  hasWasm : Bool
  stretcher : ℤ
  bypassed : Bool
  fadeCounter : ℤ
  channels : ℕ
  previousPitchScale : ℚ
  previousFormantScale : ℚ
  deriving Repr, DecidableEq

/-- `passthrough(input, output)` (lines 438-443): channel `ch` receives
`input[ch] || input[0]`. -/
def passthroughR (input : List (List ℚ)) (outChans : ℕ) : List (List ℚ) :=
  (List.range outChans).map (fun ch => input.getD ch (input.getD 0 []))

/-- The per-channel output loop of the `available >= numSamples` branch
(lines 411-426): each channel takes the processed data (with crossfade while
`fadeCounter > 0`, which decrements once per faded channel). -/
def outputLoop (bypassed : Bool) (input retrieved : List (List ℚ))
    (channels numSamples : ℕ) (sinQ cosQ : ℚ → ℚ) (outChans : ℕ) (fade0 : ℤ) :
    List (List ℚ) × ℤ :=
  (List.range outChans).foldl (fun (acc : List (List ℚ) × ℤ) ch =>
    let dry := input.getD ch (input.getD 0 [])
    let wet := retrieved.getD (min ch (channels - 1)) []
    if 0 < acc.2 then
      let fadeProgress : ℚ := 1 - (acc.2 : ℚ) / 64
      let wetGain := if bypassed then cosQ fadeProgress else sinQ fadeProgress
      let dryGain := if bypassed then sinQ fadeProgress else cosQ fadeProgress
      (acc.1 ++ [(List.range numSamples).map
          (fun i => getQ dry i * dryGain + getQ wet i * wetGain)],
       acc.2 - 1)
    else
      (acc.1 ++ [(List.range numSamples).map (fun i => getQ wet i)], acc.2))
    ([], fade0)

/-- `process(inputs, outputs, parameters)` (lines 321-433). -/
def process (p : RubberbandProcessor) (input : List (List ℚ)) (outChans : ℕ)
    (pitchScale formantScale : ℚ) (enabled : Bool) (available : ℤ)
    (retrieved : List (List ℚ)) (sinQ cosQ : ℚ → ℚ) :
    RubberbandProcessor × List (List ℚ) :=
  let numSamples := (input.getD 0 []).length
  if input.length = 0 ∨ outChans = 0 then
    (p, List.replicate outChans (List.replicate numSamples 0))
  else
    let shouldBypass : Bool := !enabled || (if |pitchScale - 1| < 1/1000 then true else false)
    let p1 :=
      if shouldBypass = true ∧ p.bypassed = false then
        { p with fadeCounter := 64, bypassed := true }
      else if shouldBypass = false ∧ p.bypassed = true then
        { p with fadeCounter := 64, bypassed := false }
      else p
    if p1.ready = false ∨ p1.hasWasm = false ∨ p1.stretcher = 0 then
      (p1, passthroughR input outChans)
    else if p1.bypassed = true ∧ p1.fadeCounter ≤ 0 then
      (p1, passthroughR input outChans)
    else
      let p2 := { p1 with
        previousPitchScale :=
          if 1/1000 < |pitchScale - p1.previousPitchScale| then pitchScale
          else p1.previousPitchScale,
        previousFormantScale :=
          if 1/1000 < |formantScale - p1.previousFormantScale| then formantScale
          else p1.previousFormantScale }
      if (numSamples : ℤ) ≤ available then
        let r := outputLoop p2.bypassed input retrieved p2.channels numSamples
          sinQ cosQ outChans p2.fadeCounter
        ({ p2 with fadeCounter := r.2 }, r.1)
      else
        (p2, passthroughR input outChans)

end Rubberband

/-- C4: if the adapter is not initialized (not ready, WASM module absent, or
stretcher handle null), `process` emits the input block unchanged (the
channel-mapped dry pass-through), for every enabled flag and parameter
values. -/
theorem c4_uninitialized_passthrough (p : Rubberband.RubberbandProcessor)
    (input : List (List ℚ)) (outChans : ℕ) (pitchScale formantScale : ℚ)
    (enabled : Bool) (available : ℤ) (retrieved : List (List ℚ))
    (sinQ cosQ : ℚ → ℚ) (hin : input.length ≠ 0) (hout : outChans ≠ 0)
    (huninit : p.ready = false ∨ p.hasWasm = false ∨ p.stretcher = 0) :
    (Rubberband.process p input outChans pitchScale formantScale enabled
        available retrieved sinQ cosQ).2
      = Rubberband.passthroughR input outChans := by
  unfold Rubberband.process
  dsimp only
  rw [if_neg (by push_neg; exact ⟨hin, hout⟩)]
  by_cases h1 : ((!enabled || (if |pitchScale - 1| < 1/1000 then true else false)) = true
      ∧ p.bypassed = false)
  · simp only [if_pos h1]
    rw [if_pos huninit]
  · simp only [if_neg h1]
    by_cases h2 : ((!enabled || (if |pitchScale - 1| < 1/1000 then true else false)) = false
        ∧ p.bypassed = true)
    · simp only [if_pos h2]
      rw [if_pos huninit]
    · simp only [if_neg h2]
      rw [if_pos huninit]

/-- Witness for C4: a fresh, never-initialized adapter passes a concrete
stereo block through unchanged. -/
theorem c4_uninitialized_passthrough_witness :
    ([[ (1:ℚ), 2], [3, 4]] : List (List ℚ)).length ≠ 0 ∧ (2:ℕ) ≠ 0 ∧
    ((Rubberband.RubberbandProcessor.mk false false 0 true 0 2 1 1).ready = false ∨
      (Rubberband.RubberbandProcessor.mk false false 0 true 0 2 1 1).hasWasm = false ∨
      (Rubberband.RubberbandProcessor.mk false false 0 true 0 2 1 1).stretcher = 0) ∧
    (Rubberband.process (Rubberband.RubberbandProcessor.mk false false 0 true 0 2 1 1)
        [[(1:ℚ), 2], [3, 4]] 2 (3/2) 1 true 0 [] (fun _ => 0) (fun _ => 0)).2
      = Rubberband.passthroughR [[(1:ℚ), 2], [3, 4]] 2 :=
  ⟨by decide, by decide, Or.inl rfl,
   c4_uninitialized_passthrough _ [[(1:ℚ), 2], [3, 4]] 2 (3/2) 1 true 0 []
     (fun _ => 0) (fun _ => 0) (by decide) (by decide) (Or.inl rfl)⟩

/-- `1e-10`, the effective-value push threshold of both engines. -/
def eps1e10 : ℚ := 1 / 10 ^ 10

namespace Worklet

/-- Worklet `SoundTouchEngine` (soundtouch-processor.ts lines 380-463).  The
three FIFO buffers are held once, canonically, in the engine: the JS code
aliases them into the two cores on every `calculateEffectiveRateAndTempo`
(unconditionally, lines 441-451), with the layout fully determined by
`_rate > 1`, so `processE` below injects the canonical buffers into the
cores in that layout and writes the results back. -/
structure SoundTouchEngine where
  rateTransposer : RateTransposer
  timeStretch : TimeStretch
  inputB : SoundTouchLib.FifoSampleBuffer
  intermediateB : SoundTouchLib.FifoSampleBuffer
  outputB : SoundTouchLib.FifoSampleBuffer
  rate : ℚ
  tempo : ℚ
  virtualPitch : ℚ
  deriving Repr, DecidableEq

namespace SoundTouchEngine

/-- `calculateEffectiveRateAndTempo()` (lines 426-452): effective tempo
`1/virtualPitch` and rate `virtualPitch`, pushed into the cores when they
moved by more than `1e-10`. -/
def calculateEffectiveRateAndTempo (e : SoundTouchEngine) : SoundTouchEngine :=
  let tempoN : ℚ := 1 / e.virtualPitch
  let rateN : ℚ := e.virtualPitch
  { e with
    tempo := tempoN, rate := rateN,
    timeStretch :=
      (if eps1e10 < |tempoN - e.tempo| then e.timeStretch.setTempo tempoN
       else e.timeStretch),
    rateTransposer :=
      (if eps1e10 < |rateN - e.rate| then e.rateTransposer.setRate rateN
       else e.rateTransposer) }

/-- Constructor (lines 392-402): fresh cores and buffers, stretcher
configured for the sample rate (default 16 ms overlap), then one effective
recalculation. -/
def mkEngine (sampleRate : ℚ) : SoundTouchEngine :=
  calculateEffectiveRateAndTempo
    { rateTransposer := RateTransposer.mk',
      timeStretch := TimeStretch.mk'.setParameters sampleRate 16,
      inputB := SoundTouchLib.FifoSampleBuffer.mk',
      intermediateB := SoundTouchLib.FifoSampleBuffer.mk',
      outputB := SoundTouchLib.FifoSampleBuffer.mk',
      rate := 1, tempo := 1, virtualPitch := 1 }

/-- `set pitch(value)` (lines 407-410). -/
def setPitch (e : SoundTouchEngine) (v : ℚ) : SoundTouchEngine :=
  calculateEffectiveRateAndTempo { e with virtualPitch := v }

/-- `reset()` (lines 418-424). -/
def resetE (e : SoundTouchEngine) : SoundTouchEngine :=
  { e with rateTransposer := e.rateTransposer.reset,
           timeStretch := e.timeStretch.reset,
           inputB := e.inputB.clear,
           intermediateB := e.intermediateB.clear,
           outputB := e.outputB.clear }

/-- `process()` (lines 454-462): with rate above 1 stretch then transpose
(input → intermediate → output), otherwise transpose then stretch. -/
def processE (fuel : ℕ) (e : SoundTouchEngine) : Option SoundTouchEngine :=
  if 1 < e.rate then
    match Worklet.TimeStretch.process fuel
        { e.timeStretch with inputBuffer := e.inputB, outputBuffer := e.intermediateB } with
    | none => none
    | some ts' =>
      match Worklet.RateTransposer.process fuel
          { e.rateTransposer with inputBuffer := ts'.outputBuffer, outputBuffer := e.outputB } with
      | none => none
      | some (rt', _) =>
        some { e with timeStretch := ts', rateTransposer := rt',
                      inputB := ts'.inputBuffer, intermediateB := rt'.inputBuffer,
                      outputB := rt'.outputBuffer }
  else
    match Worklet.RateTransposer.process fuel
        { e.rateTransposer with inputBuffer := e.inputB, outputBuffer := e.intermediateB } with
    | none => none
    | some (rt', _) =>
      match Worklet.TimeStretch.process fuel
          { e.timeStretch with inputBuffer := rt'.outputBuffer, outputBuffer := e.outputB } with
      | none => none
      | some ts' =>
        some { e with timeStretch := ts', rateTransposer := rt',
                      inputB := rt'.inputBuffer, intermediateB := ts'.inputBuffer,
                      outputB := ts'.outputBuffer }

end SoundTouchEngine

/-- Worklet `SoundTouchProcessor` block state (lines 500-506): the engine,
the 256-sample staging array, and the bypass/fade/skip bookkeeping. -/
structure SoundTouchProcessor where
  soundTouch : SoundTouchEngine
  outputBuffer : List ℚ
  bypassed : Bool
  fadeCounter : ℤ
  previousPitch : ℚ
  skipBuffer : Bool
  skipBufferCounter : ℤ
  deriving Repr, DecidableEq

namespace SoundTouchProcessor

/-- `process(inputs, outputs, parameters)` (lines 526-642) for one block:
`left`/`right` are the two input channels (`right = left` for mono input),
`totalSemitones = semitone + cents/100` and `targetPitch` is the processor's
`Math.pow(2, totalSemitones / 12)` — an irrational power, so it is supplied
as an oracle argument and used wherever the source uses the computed pitch
(the bypass/change tests and the engine's `pitchSemitones` assignment).
Returns the updated state and the two output channels. -/
def process (p : SoundTouchProcessor) (left right : List ℚ)
    (totalSemitones targetPitch : ℚ) (enabled : Bool) (fuel : ℕ) :
    Option (SoundTouchProcessor × List ℚ × List ℚ) :=
  let numSamples := left.length
  let shouldBypass : Bool :=
    !enabled || (if |targetPitch - 1| < 1/1000 then true else false)
  let p1 :=
    if 1/1000 < |targetPitch - p.previousPitch| then
      let pa := if 3 < |totalSemitones| ∨ (p.bypassed = true ∧ shouldBypass = false) then
          { p with skipBuffer := true, skipBufferCounter := 32 }
        else p
      { pa with soundTouch := pa.soundTouch.setPitch targetPitch,
                previousPitch := targetPitch }
    else p
  let p2 :=
    if shouldBypass = true ∧ p1.bypassed = false then
      { p1 with skipBuffer := true, skipBufferCounter := 32, bypassed := true,
                soundTouch := p1.soundTouch.resetE }
    else if shouldBypass = false ∧ p1.bypassed = true then
      { p1 with skipBuffer := true, skipBufferCounter := 32, bypassed := false }
    else p1
  if p2.bypassed = true ∧ p2.skipBufferCounter ≤ 0 ∧ p2.fadeCounter ≤ 0 then
    some (p2, left, right)
  else
    let interleaved := (List.range numSamples).foldr
      (fun i acc => getQ left i :: getQ right i :: acc) []
    let st1 := { p2.soundTouch with
      inputB := p2.soundTouch.inputB.putSamples interleaved 0 numSamples }
    match (if 4096 ≤ st1.inputB.frameCount then SoundTouchEngine.processE fuel st1
           else some st1) with
    | none => none
    | some st2 =>
      let buf0 := List.replicate 256 (0 : ℚ)
      let available := min numSamples st2.outputB.frameCount
      let pr := if 0 < available then st2.outputB.receiveSamples buf0 available
                else (buf0, st2.outputB)
      let p3 := { p2 with soundTouch := { st2 with outputB := pr.2 },
                          outputBuffer := pr.1 }
      if 0 < p3.skipBufferCounter then
        some ({ p3 with skipBufferCounter := p3.skipBufferCounter - 1 }, left, right)
      else
        let p4 := if p3.skipBuffer = true then
            { p3 with fadeCounter := 64, skipBuffer := false }
          else p3
        if 0 < p4.fadeCounter then
          let fadeProgress : ℚ := 1 - (p4.fadeCounter : ℚ) / 64
          some ({ p4 with fadeCounter := p4.fadeCounter - 1 },
            (List.range numSamples).map (fun i =>
              getQ left i * (1 - fadeProgress) + getQ pr.1 (i * 2) * fadeProgress),
            (List.range numSamples).map (fun i =>
              getQ right i * (1 - fadeProgress) + getQ pr.1 (i * 2 + 1) * fadeProgress))
        else
          some (p4,
            (List.range numSamples).map (fun i => getQ pr.1 (i * 2)),
            (List.range numSamples).map (fun i => getQ pr.1 (i * 2 + 1)))

end SoundTouchProcessor

end Worklet

theorem getQ_replicate (k i : ℕ) : getQ (List.replicate k (0 : ℚ)) i = 0 := by
  unfold getQ
  rcases lt_or_le i k with h | h
  · rw [List.getD_eq_getElem?_getD, List.getElem?_replicate, if_pos h]
    rfl
  · rw [List.getD_eq_default]
    rw [List.length_replicate]
    exact h

theorem rangeMap_getQ_replicate (n : ℕ) (f : ℕ → ℕ) :
    (List.range n).map (fun i => getQ (List.replicate 256 (0 : ℚ)) (f i))
      = List.replicate n 0 := by
  rw [List.eq_replicate_iff]
  refine ⟨by rw [List.length_map, List.length_range], ?_⟩
  intro b hb
  obtain ⟨i, -, rfl⟩ := List.mem_map.mp hb
  exact getQ_replicate 256 (f i)

theorem rangeMapEven (n : ℕ) :
    (List.range n).map (fun i => getQ (List.replicate 256 (0 : ℚ)) (i * 2))
      = List.replicate n 0 :=
  rangeMap_getQ_replicate n (fun i => i * 2)

theorem rangeMapOdd (n : ℕ) :
    (List.range n).map (fun i => getQ (List.replicate 256 (0 : ℚ)) (i * 2 + 1))
      = List.replicate n 0 :=
  rangeMap_getQ_replicate n (fun i => i * 2 + 1)

set_option maxHeartbeats 2000000 in
/-- C1 (amended): on a transient underrun the external-stretcher adapter
emits a pass-through block (whenever it is initialized, whatever the bypass
phase), but the SoundTouch worklet does not: with the engine running (not
bypassed, no skip period, no fade, no pitch change this block) and its
output buffer empty, and too few buffered frames to trigger engine
processing, the worklet emits silence (the zero-filled staging buffer), not
the input. -/
theorem c1_underrun_block (pR : Rubberband.RubberbandProcessor)
    (input : List (List ℚ)) (outChans : ℕ) (pitchScale formantScale : ℚ)
    (enabled : Bool) (available : ℤ) (retrieved : List (List ℚ))
    (sinQ cosQ : ℚ → ℚ) (pW : Worklet.SoundTouchProcessor)
    (left right : List ℚ) (totalSemitones targetPitch : ℚ) (enabledW : Bool)
    (fuel : ℕ)
    (hin : input.length ≠ 0) (hout : outChans ≠ 0)
    (hready : pR.ready = true) (hwasm : pR.hasWasm = true) (hstr : pR.stretcher ≠ 0)
    (hund : available < ((input.getD 0 []).length : ℤ))
    (hWb : pW.bypassed = false) (hWsb : pW.skipBuffer = false)
    (hWsc : pW.skipBufferCounter ≤ 0) (hWf : pW.fadeCounter ≤ 0)
    (hWpp : ¬ (1/1000 < |targetPitch - pW.previousPitch|))
    (hWen : enabledW = true) (hWnb : ¬ (|targetPitch - 1| < 1/1000))
    (hWempty : pW.soundTouch.outputB.frameCount = 0)
    (hWsmall : pW.soundTouch.inputB.frameCount + left.length < 4096) :
    (Rubberband.process pR input outChans pitchScale formantScale enabled
        available retrieved sinQ cosQ).2
      = Rubberband.passthroughR input outChans
    ∧ (Worklet.SoundTouchProcessor.process pW left right totalSemitones
        targetPitch enabledW fuel).map (fun r => (r.2.1, r.2.2))
      = some (List.replicate left.length (0 : ℚ), List.replicate left.length (0 : ℚ)) := by
  constructor
  · unfold Rubberband.process
    dsimp only
    rw [if_neg (by push_neg; exact ⟨hin, hout⟩)]
    by_cases hc1 : ((!enabled || (if |pitchScale - 1| < 1/1000 then true else false)) = true
        ∧ pR.bypassed = false)
    · simp only [if_pos hc1]
      rw [if_neg (by simp [hready, hwasm, hstr])]
      rw [if_neg (by rintro ⟨-, h⟩; omega)]
      rw [if_neg (by omega)]
    · simp only [if_neg hc1]
      by_cases hc2 : ((!enabled || (if |pitchScale - 1| < 1/1000 then true else false)) = false
          ∧ pR.bypassed = true)
      · simp only [if_pos hc2]
        rw [if_neg (by simp [hready, hwasm, hstr])]
        rw [if_neg (by rintro ⟨h, -⟩; cases h)]
        rw [if_neg (by omega)]
      · simp only [if_neg hc2]
        rw [if_neg (by simp [hready, hwasm, hstr])]
        by_cases hbg : (pR.bypassed = true ∧ pR.fadeCounter ≤ 0)
        · simp only [if_pos hbg]
        · simp only [if_neg hbg]
          rw [if_neg (by omega)]
  · unfold Worklet.SoundTouchProcessor.process
    dsimp only
    have hsb : (!enabledW || (if |targetPitch - 1| < 1/1000 then true else false)) = false := by
      rw [hWen, if_neg hWnb]
      rfl
    rw [if_neg hWpp, hsb]
    have hn1 : ¬((false : Bool) = true ∧ pW.bypassed = false) := by simp
    have hn2 : ¬(True ∧ pW.bypassed = true) := by simp [hWb]
    simp only [if_neg hn1, if_neg hn2]
    have hn3 : ¬(pW.bypassed = true ∧ pW.skipBufferCounter ≤ 0 ∧ pW.fadeCounter ≤ 0) := by
      simp [hWb]
    rw [if_neg hn3]
    rw [SoundTouchLib.FifoSampleBuffer.putSamples_frameCount]
    have hn4 : ¬(4096 ≤ pW.soundTouch.inputB.frameCount + left.length) := by omega
    simp only [if_neg hn4]
    rw [hWempty, Nat.min_zero]
    simp only [if_neg (lt_irrefl 0)]
    have hn6 : ¬((0 : ℤ) < pW.skipBufferCounter) := by omega
    simp only [if_neg hn6]
    simp only [hWsb]
    have hn7 : ¬((false : Bool) = true) := by simp
    simp only [if_neg hn7]
    have hn8 : ¬((0 : ℤ) < pW.fadeCounter) := by omega
    simp only [if_neg hn8]
    rw [Option.map_some']
    dsimp only
    rw [rangeMapEven, rangeMapOdd]


/-- A concrete engine-running worklet processor state for C1: not bypassed,
no skip or fade pending, engine configured for pitch 2 with nothing buffered.
The physical buffer capacities are smaller than the source's 4096-frame
default; capacity only sizes the backing storage and never affects the
values the processor emits. -/
def c1proc : Worklet.SoundTouchProcessor :=
  { soundTouch :=
      { rateTransposer := ⟨2, 0, 0, 0, SoundTouchLib.FifoSampleBuffer.mk' 4,
          SoundTouchLib.FifoSampleBuffer.mk' 4⟩,
        timeStretch := ⟨44100, 1/2, 0, 0, 0, 0, 0, none, none, 0,
          SoundTouchLib.FifoSampleBuffer.mk' 4, SoundTouchLib.FifoSampleBuffer.mk' 4⟩,
        inputB := SoundTouchLib.FifoSampleBuffer.mk' 8,
        intermediateB := SoundTouchLib.FifoSampleBuffer.mk' 4,
        outputB := SoundTouchLib.FifoSampleBuffer.mk' 4,
        rate := 2, tempo := 1/2, virtualPitch := 2 },
    outputBuffer := List.replicate 256 0,
    bypassed := false, fadeCounter := 0, previousPitch := 2,
    skipBuffer := false, skipBufferCounter := 0 }

unseal Rat.add Rat.mul Rat.inv Rat.sub in
/-- Counterexample to the unqualified C1: the SoundTouch worklet, running
(not bypassed, no skip period, no fade) with its processed output empty,
emits silence for the block, not the input block: with both input channels
`[1, 1]` the output channels are `[0, 0]`. -/
theorem c1_counterexample :
    (Worklet.SoundTouchProcessor.process c1proc [1, 1] [1, 1] 12 2 true 1).map
        (fun r => (r.2.1, r.2.2))
      = some ([0, 0], [0, 0]) ∧ ([0, 0] : List ℚ) ≠ [1, 1] := by
  refine ⟨by decide, by decide⟩

unseal Rat.add Rat.mul Rat.inv Rat.sub in
/-- Witness for C1 at concrete states: an initialized adapter with underrun
passes `[[1, 2]]` through; the running worklet processor with an empty
engine output emits silence for a two-frame block. -/
theorem c1_underrun_block_witness :
    (Rubberband.process (Rubberband.RubberbandProcessor.mk true true 1 false 0 2 1 1)
        [[(1 : ℚ), 2]] 1 (3/2) 1 true 0 [] (fun _ => 0) (fun _ => 0)).2
      = Rubberband.passthroughR [[(1 : ℚ), 2]] 1
    ∧ (Worklet.SoundTouchProcessor.process c1proc [1, 1] [1, 1] 12 2 true 1).map
        (fun r => (r.2.1, r.2.2))
      = some (List.replicate 2 (0 : ℚ), List.replicate 2 (0 : ℚ)) :=
  c1_underrun_block (Rubberband.RubberbandProcessor.mk true true 1 false 0 2 1 1)
    [[(1 : ℚ), 2]] 1 (3/2) 1 true 0 [] (fun _ => 0) (fun _ => 0)
    c1proc [1, 1] [1, 1] 12 2 true 1
    (by decide) (by decide) rfl rfl (by decide) (by decide)
    rfl rfl (by decide) (by decide) (by decide) rfl (by decide) rfl (by decide)

namespace SoundTouchLib

/-- Library `SoundTouch` engine (part_003 lines 484-620).  As for the worklet
engine, the three FIFO buffers are held canonically in the engine; the JS
wiring assignments (lines 591-607) only re-alias them into the two cores,
guarded by an object-identity test that is equivalent to asking whether the
current layout flag already matches, so the layout is modelled by `wiring`
(`none` before the first recalculation, `some true` for the rate > 1 order,
`some false` otherwise). -/
structure SoundTouch where
  rateTransposer : RateTransposer
  timeStretch : TimeStretch
  inputB : FifoSampleBuffer
  intermediateB : FifoSampleBuffer
  outputB : FifoSampleBuffer
  rate : ℚ
  tempo : ℚ
  virtualPitch : ℚ
  virtualRate : ℚ
  virtualTempo : ℚ
  wiring : Option Bool
  deriving Repr, DecidableEq

namespace SoundTouch

/-- `calculateEffectiveRateAndTempo()` (lines 572-608): effective tempo
`virtualTempo / virtualPitch` and rate `virtualRate * virtualPitch`, each
pushed into its core when it moved by more than `1e-10`. -/
def calculateEffectiveRateAndTempo (s : SoundTouch) : SoundTouch :=
  let tempoN : ℚ := s.virtualTempo / s.virtualPitch
  let rateN : ℚ := s.virtualRate * s.virtualPitch
  { s with
    tempo := tempoN, rate := rateN,
    timeStretch :=
      (if eps1e10 < |tempoN - s.tempo| then s.timeStretch.setTempo tempoN
       else s.timeStretch),
    rateTransposer :=
      (if eps1e10 < |rateN - s.rate| then s.rateTransposer.setRate rateN
       else s.rateTransposer),
    wiring := (if 1 < rateN then some true else some false) }

/-- Constructor (lines 498-507). -/
def mkSoundTouch : SoundTouch :=
  calculateEffectiveRateAndTempo
    { rateTransposer := RateTransposer.mk', timeStretch := TimeStretch.mk',
      inputB := FifoSampleBuffer.mk', intermediateB := FifoSampleBuffer.mk',
      outputB := FifoSampleBuffer.mk',
      rate := 1, tempo := 1, virtualPitch := 1, virtualRate := 1, virtualTempo := 1,
      wiring := none }

/-- `set rate(value)` (lines 518-521). -/
def setRateCtl (s : SoundTouch) (v : ℚ) : SoundTouch :=
  calculateEffectiveRateAndTempo { s with virtualRate := v }

/-- `set tempo(value)` (lines 528-531). -/
def setTempoCtl (s : SoundTouch) (v : ℚ) : SoundTouch :=
  calculateEffectiveRateAndTempo { s with virtualTempo := v }

/-- `set pitch(value)` (lines 538-541). -/
def setPitchCtl (s : SoundTouch) (v : ℚ) : SoundTouch :=
  calculateEffectiveRateAndTempo { s with virtualPitch := v }

end SoundTouch

end SoundTouchLib

/-- C2: after any assignment to any of the three virtual controls, the
library engine's effective tempo is `virtualTempo / virtualPitch` and its
effective rate is `virtualRate * virtualPitch`, and each effective value is
pushed into its sub-component (`TimeStretch` tempo via its tempo setter,
`RateTransposer` rate) exactly when it moved by more than `1e-10`; the
worklet engine's pitch control behaves identically with
`virtualTempo = virtualRate = 1` fixed. -/
theorem c2_effective_rate_tempo (s : SoundTouchLib.SoundTouch)
    (e : Worklet.SoundTouchEngine) (v : ℚ) :
    ((s.setPitchCtl v).tempo = s.virtualTempo / v
      ∧ (s.setPitchCtl v).rate = s.virtualRate * v
      ∧ (s.setPitchCtl v).timeStretch
          = (if eps1e10 < |s.virtualTempo / v - s.tempo|
             then s.timeStretch.setTempo (s.virtualTempo / v) else s.timeStretch)
      ∧ (s.setPitchCtl v).rateTransposer
          = (if eps1e10 < |s.virtualRate * v - s.rate|
             then s.rateTransposer.setRate (s.virtualRate * v) else s.rateTransposer))
    ∧ ((s.setTempoCtl v).tempo = v / s.virtualPitch
      ∧ (s.setTempoCtl v).rate = s.virtualRate * s.virtualPitch
      ∧ (s.setTempoCtl v).timeStretch
          = (if eps1e10 < |v / s.virtualPitch - s.tempo|
             then s.timeStretch.setTempo (v / s.virtualPitch) else s.timeStretch)
      ∧ (s.setTempoCtl v).rateTransposer
          = (if eps1e10 < |s.virtualRate * s.virtualPitch - s.rate|
             then s.rateTransposer.setRate (s.virtualRate * s.virtualPitch)
             else s.rateTransposer))
    ∧ ((s.setRateCtl v).tempo = s.virtualTempo / s.virtualPitch
      ∧ (s.setRateCtl v).rate = v * s.virtualPitch
      ∧ (s.setRateCtl v).timeStretch
          = (if eps1e10 < |s.virtualTempo / s.virtualPitch - s.tempo|
             then s.timeStretch.setTempo (s.virtualTempo / s.virtualPitch)
             else s.timeStretch)
      ∧ (s.setRateCtl v).rateTransposer
          = (if eps1e10 < |v * s.virtualPitch - s.rate|
             then s.rateTransposer.setRate (v * s.virtualPitch)
             else s.rateTransposer))
    ∧ ((e.setPitch v).tempo = 1 / v
      ∧ (e.setPitch v).rate = v
      ∧ (e.setPitch v).timeStretch
          = (if eps1e10 < |1 / v - e.tempo|
             then e.timeStretch.setTempo (1 / v) else e.timeStretch)
      ∧ (e.setPitch v).rateTransposer
          = (if eps1e10 < |v - e.rate|
             then e.rateTransposer.setRate v else e.rateTransposer)) :=
  ⟨⟨rfl, rfl, rfl, rfl⟩, ⟨rfl, rfl, rfl, rfl⟩, ⟨rfl, rfl, rfl, rfl⟩,
   ⟨rfl, rfl, rfl, rfl⟩⟩

/-- C3 (amended): the pitch control is absolute, not cumulative: setting
pitch `v1` and then `v2` sequentially leaves the same effective tempo and
effective rate as directly setting pitch `v2` — so 2.0 then 0.5 matches an
engine set directly to pitch 0.5, not to pitch 1.0.  An identity of the
virtual-to-effective mapping, independent of `process()`. -/
theorem c3_pitch_sequential (s : SoundTouchLib.SoundTouch) (v1 v2 : ℚ) :
    ((s.setPitchCtl v1).setPitchCtl v2).tempo = (s.setPitchCtl v2).tempo
    ∧ ((s.setPitchCtl v1).setPitchCtl v2).rate = (s.setPitchCtl v2).rate :=
  ⟨rfl, rfl⟩

unseal Rat.add Rat.mul Rat.inv Rat.sub in
/-- Counterexample to C3 as stated: on a fresh engine, pitch 2.0 then 0.5
ends with effective tempo 2 and rate 1/2, while directly setting pitch 1.0
gives tempo 1 and rate 1. -/
theorem c3_counterexample :
    ((SoundTouchLib.SoundTouch.mkSoundTouch.setPitchCtl 2).setPitchCtl (1/2)).tempo = 2
    ∧ ((SoundTouchLib.SoundTouch.mkSoundTouch.setPitchCtl 2).setPitchCtl (1/2)).rate = 1/2
    ∧ (SoundTouchLib.SoundTouch.mkSoundTouch.setPitchCtl 1).tempo = 1
    ∧ (SoundTouchLib.SoundTouch.mkSoundTouch.setPitchCtl 1).rate = 1
    ∧ (2 : ℚ) ≠ 1 ∧ (1/2 : ℚ) ≠ 1 := by
  refine ⟨by decide, by decide, by decide, by decide, by decide, by decide⟩
